import Mathlib

/-!
# blog-dynamic-informers: a verification development of `main.go`

The program resolves a cluster configuration (`restConfig`), builds a dynamic
client and one informer for `deployments.v1.apps`, starts `startWatching` in a
goroutine and waits for a signal before closing the stop channel.

The embedding has three layers.

* Pure functions (`restConfig`, the three handler closures, the resource
  argument parser) are Lean functions.  Results of Go functions of type
  `(T, error)` are pairs of optional values, `none` standing for `nil`.
* What the libraries outside the program answer (`rest.InClusterConfig`,
  `clientcmd.BuildConfigFromFlags`, `dynamic.NewForConfig`, the process
  environment) is a parameter, the record `World`.
* `main` and the `startWatching` goroutine are a step function on a process
  state, driven by a schedule: a list of actions chosen by the Go scheduler,
  the informer and the operating system.
-/

namespace DynamicInformers

/-! ## Values -/

/-- Go `error` values, identified by their message. -/
abbrev Error := String

/-- Stand-in for `*rest.Config`: the resolved cluster endpoint. -/
structure Config where
  Host : String
  deriving DecidableEq, Repr

/-- Stand-in for `dynamic.Interface`, the client built from a configuration. -/
structure Client where
  cfg : Config
  deriving DecidableEq, Repr

/-- Go result pair `(T, error)`; `none` is `nil` on either side. -/
abbrev Result (α : Type) := Option α × Option Error

/-- What lies outside the program: the process environment and the answers of
the library calls whose outcome the program only passes on. -/
structure World where
  /-- The process environment, `none` for a variable that is not set. -/
  environ : String → Option String
  /-- Answer of `rest.InClusterConfig()`. -/
  InClusterConfig : Result Config
  /-- Answer of `clientcmd.BuildConfigFromFlags(masterUrl, kubeconfigPath)`. -/
  BuildConfigFromFlags : String → String → Result Config
  /-- Answer of `dynamic.NewForConfig(cfg)`. -/
  NewForConfig : Option Config → Result Client

/-- Go `os.Getenv`: the value of the variable, empty when it is not present. -/
def Getenv (w : World) (key : String) : String :=
  (w.environ key).getD ""

/-! ## `restConfig` (main.go, lines 50-61) -/

/-- Embedding of `restConfig`: in-cluster resolution runs first, a non-empty
`KUBECONFIG` overwrites both of its results, and the error decides the return. -/
def restConfig (w : World) : Result Config :=
  let (kubeCfg, err) := w.InClusterConfig
  let (kubeCfg, err) :=
    if Getenv w "KUBECONFIG" ≠ "" then
      w.BuildConfigFromFlags "" (Getenv w "KUBECONFIG")
    else (kubeCfg, err)
  if err ≠ none then (none, err) else (kubeCfg, none)

/-! ## Logging (logrus) -/

/-- The logrus levels the program uses. -/
inductive Level where
  | info
  | fatal
  deriving DecidableEq, Repr

/-- Label maps, as returned by `GetLabels`. -/
abbrev Labels := List (String × String)

/-- Values stored in `logrus.Fields`. -/
inductive FieldValue where
  | str (s : String)
  | strMap (m : Labels)
  | err (e : Error)
  deriving DecidableEq, Repr

/-- One emitted log entry: level, message and data fields. The fields of a
composite literal are listed in source order. -/
structure Entry where
  level : Level
  msg : String
  fields : List (String × FieldValue)
  deriving DecidableEq, Repr

/-- Entry written by `logrus.Info(msg)`: no fields. -/
def Info (msg : String) : Entry :=
  { level := Level.info, msg := msg, fields := [] }

/-- Entry written by `logrus.WithFields(fields).Info(msg)`. -/
def WithFieldsInfo (fields : List (String × FieldValue)) (msg : String) : Entry :=
  { level := Level.info, msg := msg, fields := fields }

/-- Entry written by `logrus.WithError(err).Fatal(msg)`: `WithError` stores the
error under the key `error`; `Fatal` then ends the process with code 1. -/
def WithErrorFatal (err : Error) (msg : String) : Entry :=
  { level := Level.fatal, msg := msg, fields := [("error", FieldValue.err err)] }

/-! ## Objects and handlers (main.go, lines 63-84) -/

/-- A non-nil `*unstructured.Unstructured`, seen through the three accessors
the program calls on it. -/
structure Unstructured where
  GetName : String
  GetNamespace : String
  GetLabels : Labels
  deriving DecidableEq, Repr

/-- Go `interface{}` values handed to the handlers, by dynamic type. -/
inductive Interface where
  /-- The untyped `nil`. -/
  | nil
  /-- Dynamic type `*unstructured.Unstructured`; `none` is the nil pointer. -/
  | unstructured (p : Option Unstructured)
  /-- Any other dynamic type, for instance `cache.DeletedFinalStateUnknown`. -/
  | other (typeName : String)
  deriving DecidableEq, Repr

/-- Run-time panics a handler can raise. -/
inductive Panic where
  /-- The assertion `obj.(*unstructured.Unstructured)` failed. -/
  | typeAssertion
  /-- An accessor read through a nil `*unstructured.Unstructured`. -/
  | nilDereference
  deriving DecidableEq, Repr

/-- What one handler call did: the entries it logged and the panic that ended
it, if any. -/
structure HandlerResult where
  logs : List Entry
  panic : Option Panic
  deriving DecidableEq, Repr

/-- Mirror of `cache.ResourceEventHandlerFuncs`. -/
structure ResourceEventHandlerFuncs where
  AddFunc : Interface → HandlerResult
  UpdateFunc : Interface → Interface → HandlerResult
  DeleteFunc : Interface → HandlerResult

/-- The literal `handlers` of `startWatching`. -/
def handlers : ResourceEventHandlerFuncs where
  AddFunc := fun obj =>
    match obj with
    | Interface.unstructured (some u) =>
      { logs := [WithFieldsInfo
          [("name", FieldValue.str u.GetName),
           ("namespace", FieldValue.str u.GetNamespace),
           ("labels", FieldValue.strMap u.GetLabels)]
          "received add event!"],
        panic := none }
    | Interface.unstructured none => { logs := [], panic := some Panic.nilDereference }
    | _ => { logs := [], panic := some Panic.typeAssertion }
  UpdateFunc := fun _oldObj _obj =>
    { logs := [Info "received update event!"], panic := none }
  DeleteFunc := fun _obj =>
    { logs := [Info "received update event!"], panic := none }

/-- Notifications an informer delivers to its registered handlers. -/
inductive Notification where
  | add (obj : Interface)
  | update (oldObj obj : Interface)
  | delete (obj : Interface)
  deriving DecidableEq, Repr

/-- Dispatch of a notification to the matching function of a handler set
(`OnAdd`, `OnUpdate`, `OnDelete` of `ResourceEventHandlerFuncs`). -/
def dispatch (h : ResourceEventHandlerFuncs) : Notification → HandlerResult
  | Notification.add obj => h.AddFunc obj
  | Notification.update oldObj obj => h.UpdateFunc oldObj obj
  | Notification.delete obj => h.DeleteFunc obj

/-- An entry carries name, namespace and labels of `u` in its fields. -/
def Carries (e : Entry) (u : Unstructured) : Prop :=
  e.fields.lookup "name" = some (FieldValue.str u.GetName) ∧
  e.fields.lookup "namespace" = some (FieldValue.str u.GetNamespace) ∧
  e.fields.lookup "labels" = some (FieldValue.strMap u.GetLabels)

instance (e : Entry) (u : Unstructured) : Decidable (Carries e u) := by
  unfold Carries; infer_instance

/-- The deployment of the running example: `default/web`, labels `app=web`. -/
def web : Unstructured :=
  { GetName := "web", GetNamespace := "default", GetLabels := [("app", "web")] }

/-- The same deployment after a label change. -/
def web2 : Unstructured :=
  { GetName := "web", GetNamespace := "default", GetLabels := [("app", "web2")] }

/-! ## Resource arguments (k8s.io/apimachinery, package `schema`) -/

/-- Mirror of `schema.GroupVersionResource`. -/
structure GroupVersionResource where
  Group : String
  Version : String
  Resource : String
  deriving DecidableEq, Repr

/-- Mirror of `schema.GroupResource`. -/
structure GroupResource where
  Group : String
  Resource : String
  deriving DecidableEq, Repr

/-- Go `strings.Cut` with separator `.`: the text before and after the first
dot, `none` when there is no dot. -/
def Cut : List Char → Option (List Char × List Char)
  | [] => none
  | c :: cs =>
    if c = '.' then some ([], cs)
    else match Cut cs with
      | none => none
      | some (before, after) => some (c :: before, after)

/-- Go `strings.Count(s, ".")`. -/
def Count (cs : List Char) : Nat :=
  cs.count '.'

/-- Go `strings.SplitN(s, ".", n)` for `n ≥ 0`: at most `n` pieces, the last
one holding the unsplit remainder. -/
def SplitN : List Char → Nat → List (List Char)
  | _, 0 => []
  | cs, 1 => [cs]
  | cs, n + 2 =>
    match Cut cs with
    | none => [cs]
    | some (before, after) => before :: SplitN after (n + 1)

/-- Library function `schema.ParseGroupResource`. -/
def ParseGroupResource (gr : String) : GroupResource :=
  match Cut gr.data with
  | some (before, after) => { Group := String.mk after, Resource := String.mk before }
  | none => { Group := "", Resource := gr }

/-- Library function `schema.ParseResourceArg`: `resource.version.group` gives
a group-version-resource when the argument has at least two dots, and `nil`
otherwise; the second result reads the argument as `resource.group`. -/
def ParseResourceArg (arg : String) : Option GroupVersionResource × GroupResource :=
  let gvr : Option GroupVersionResource :=
    if Count arg.data ≥ 2 then
      let s := SplitN arg.data 3
      some { Group := String.mk (s.getD 2 []),
             Version := String.mk (s.getD 1 []),
             Resource := String.mk (s.getD 0 []) }
    else none
  (gvr, ParseGroupResource arg)

/-! ## Informer factory (k8s.io/client-go, package `dynamicinformer`) -/

/-- Constant `v1.NamespaceAll`. -/
def v1.NamespaceAll : String := ""

/-- A list-options tweak, identified by the label selector it installs. -/
structure TweakListOptionsFunc where
  labelSelector : String
  deriving DecidableEq, Repr

/-- The dynamic shared informer factory: the four arguments it is built from.
The resync interval is a `time.Duration`. -/
structure Factory where
  client : Option Client
  defaultResync : Int
  ns : String
  tweakListOptions : Option TweakListOptionsFunc
  deriving DecidableEq, Repr

/-- Constructor `dynamicinformer.NewFilteredDynamicSharedInformerFactory`. -/
def NewFilteredDynamicSharedInformerFactory (client : Option Client) (defaultResync : Int)
    (ns : String) (tweakListOptions : Option TweakListOptionsFunc) : Factory :=
  { client := client, defaultResync := defaultResync, ns := ns,
    tweakListOptions := tweakListOptions }

/-- The informer a factory hands out for one resource. -/
structure Informer where
  factory : Factory
  gvr : GroupVersionResource
  deriving DecidableEq, Repr

/-- Method `ForResource(gvr)` followed by `.Informer()`. -/
def Factory.ForResource (f : Factory) (gvr : GroupVersionResource) : Informer :=
  { factory := f, gvr := gvr }

/-! ## Signals (packages `os` and `os/signal`) -/

/-- The signals of the model. -/
inductive Signal where
  | SIGHUP
  | SIGINT
  | SIGKILL
  | SIGTERM
  deriving DecidableEq, Repr

/-- Constant `os.Interrupt`, which is `syscall.SIGINT`. -/
def os.Interrupt : Signal := Signal.SIGINT

/-- Constant `os.Kill`, which is `syscall.SIGKILL`. -/
def os.Kill : Signal := Signal.SIGKILL

/-- Signals a process can catch: `SIGKILL` cannot be caught. -/
def Signal.catchable : Signal → Bool
  | Signal.SIGKILL => false
  | _ => true

/-! ## The process: `main` (lines 18-48) and `startWatching` (lines 63-84) -/

/-- Channels, by identity. -/
abbrev Chan := Nat

/-- Element type of a channel the program makes. -/
inductive ChanElem where
  /-- Type `chan struct{}`, the stop channel. -/
  | struct
  /-- Type `chan os.Signal`. -/
  | signal
  deriving DecidableEq, Repr

/-- Observable events of a run, in the order they happen. -/
inductive Event where
  /-- A log entry is written. -/
  | log (e : Entry)
  /-- Call of `os.Exit(code)`, made by `Fatal`. -/
  | exit (code : Nat)
  /-- Call of `dynamic.NewForConfig(cfg)`. -/
  | newForConfig (cfg : Option Config)
  /-- An informer factory is created. -/
  | newFactory (f : Factory)
  /-- Call of `schema.ParseResourceArg(arg)`. -/
  | parseResourceArg (arg : String)
  /-- An informer is created by `ForResource`. -/
  | forResource (i : Informer)
  /-- A channel is made. -/
  | makeChan (ch : Chan) (elem : ChanElem)
  /-- Statement `go startWatching(stopCh, i.Informer())`. -/
  | go (stopCh : Chan) (i : Informer)
  /-- Call of `signal.Notify(ch, sigs...)`. -/
  | notify (ch : Chan) (sigs : List Signal)
  /-- The signal package sends a caught signal on a channel. -/
  | send (ch : Chan) (sig : Signal)
  /-- The main goroutine receives from a channel. -/
  | recv (ch : Chan) (sig : Signal)
  /-- The main goroutine closes a channel. -/
  | close (ch : Chan)
  /-- Call of `s.AddEventHandler(handlers)`. -/
  | addEventHandler (s : Informer)
  /-- Call of `s.Run(stopCh)`. -/
  | run (s : Informer) (stopCh : Chan)
  /-- The informer calls a handler for a notification. -/
  | handlerStart (n : Notification)
  /-- The handler call for a notification ends. -/
  | handlerEnd (n : Notification) (panic : Option Panic)
  /-- Method `Run` returns, which ends `startWatching`. -/
  | runReturn
  deriving DecidableEq, Repr

/-- Control point of the main goroutine, with the locals that are live. -/
inductive MainPc where
  /-- Lines 19-22: `restConfig` and its error check. -/
  | config
  /-- Lines 25-28: `dynamic.NewForConfig` and its error check. -/
  | client (cfg : Option Config)
  /-- Line 32: the factory. -/
  | factory (dc : Option Client)
  /-- Line 35: `schema.ParseResourceArg`. -/
  | parse (f : Factory)
  /-- Line 38: `f.ForResource(*gvr)`. -/
  | informer (f : Factory) (gvr : Option GroupVersionResource)
  /-- Line 40: `stopCh := make(chan struct{})`. -/
  | makeStop (i : Informer)
  /-- Line 41: `go startWatching(stopCh, i.Informer())`. -/
  | spawn (i : Informer) (stopCh : Chan)
  /-- Line 43: `sigCh := make(chan os.Signal, 0)`. -/
  | makeSig (stopCh : Chan)
  /-- Line 44: `signal.Notify(sigCh, os.Kill, os.Interrupt)`. -/
  | notify (stopCh sigCh : Chan)
  /-- Line 46: blocked in `<-sigCh`. -/
  | receive (stopCh sigCh : Chan)
  /-- Line 47: `close(stopCh)`. -/
  | close (stopCh : Chan)
  /-- Line 48: the end of `main`. -/
  | ret
  deriving DecidableEq, Repr

/-- Control point of the `startWatching` goroutine. -/
inductive WatchPc where
  /-- The goroutine has not been started. -/
  | absent
  /-- Line 82: about to call `s.AddEventHandler(handlers)`. -/
  | addEventHandler (stopCh : Chan) (s : Informer)
  /-- Line 83: about to call `s.Run(stopCh)`. -/
  | run (stopCh : Chan) (s : Informer)
  /-- Inside `Run`, no handler executing. -/
  | idle (stopCh : Chan)
  /-- Inside `Run`, the handler for a notification is executing. -/
  | handling (stopCh : Chan) (n : Notification)
  /-- A handler panicked. The program recovers no panic, so the panic ends the
  process. -/
  | panicked (p : Panic)
  /-- Method `Run` returned and `startWatching` ended. -/
  | returned
  deriving DecidableEq, Repr

/-- Whether the process is alive, and how it ended. -/
inductive Status where
  | running
  /-- The process ended with an exit code: `os.Exit(code)`, or code 0 when
  `main` returned. -/
  | exited (code : Nat)
  /-- The process was ended by a signal it did not catch. -/
  | killed (sig : Signal)
  /-- An unrecovered panic, in the main goroutine or in a handler: the Go
  runtime ends the process with exit code 2. -/
  | crashed
  deriving DecidableEq, Repr

/-- State of the process. -/
structure Proc where
  pc : MainPc
  watcher : WatchPc
  status : Status
  /-- Events so far, oldest first. -/
  trace : List Event
  /-- Identity of the next channel `make` returns. -/
  nextChan : Chan
  /-- Channels that have been closed. -/
  closed : List Chan
  /-- Registration made by `signal.Notify`: the channel and the signals. -/
  subscribed : Option (Chan × List Signal)
  /-- A value handed to the receive the main goroutine is blocked in. -/
  delivered : Option Signal
  /-- Handlers registered on the informer. -/
  registered : Option ResourceEventHandlerFuncs

/-- The process at launch. -/
def Proc.init : Proc :=
  { pc := MainPc.config, watcher := WatchPc.absent, status := Status.running, trace := [],
    nextChan := 0, closed := [], subscribed := none, delivered := none, registered := none }

/-- What moves the process. -/
inductive Action where
  /-- The main goroutine executes its next statement. -/
  | main
  /-- The `startWatching` goroutine executes its next statement; inside `Run`
  that is the end of the running handler, or the return once the stop channel
  is closed. -/
  | watch
  /-- The informer starts the handler for a notification. -/
  | deliver (n : Notification)
  /-- The operating system delivers a signal to the process. -/
  | signal (sig : Signal)
  deriving DecidableEq, Repr

/-- Function `main`, one statement at a time, from the control point of the
state; `none` when `main` is blocked in its receive. -/
def main (w : World) (s : Proc) : Option Proc :=
  match s.pc with
  | MainPc.config =>
    match restConfig w with
    | (_, some err) =>
      some { s with
        trace := s.trace ++ [Event.log (WithErrorFatal err "could not get config"), Event.exit 1],
        status := Status.exited 1 }
    | (cfg, none) => some { s with pc := MainPc.client cfg }
  | MainPc.client cfg =>
    match w.NewForConfig cfg with
    | (_, some err) =>
      some { s with
        trace := s.trace ++ [Event.newForConfig cfg,
          Event.log (WithErrorFatal err "could not generate dynamic client for config"),
          Event.exit 1],
        status := Status.exited 1 }
    | (dc, none) =>
      some { s with trace := s.trace ++ [Event.newForConfig cfg], pc := MainPc.factory dc }
  | MainPc.factory dc =>
    let f := NewFilteredDynamicSharedInformerFactory dc 0 v1.NamespaceAll none
    some { s with trace := s.trace ++ [Event.newFactory f], pc := MainPc.parse f }
  | MainPc.parse f =>
    let gvr := (ParseResourceArg "deployments.v1.apps").1
    some { s with
      trace := s.trace ++ [Event.parseResourceArg "deployments.v1.apps"],
      pc := MainPc.informer f gvr }
  | MainPc.informer f gvr =>
    match gvr with
    | none => some { s with status := Status.crashed }
    | some g =>
      let i := f.ForResource g
      some { s with trace := s.trace ++ [Event.forResource i], pc := MainPc.makeStop i }
  | MainPc.makeStop i =>
    some { s with
      trace := s.trace ++ [Event.makeChan s.nextChan ChanElem.struct],
      nextChan := s.nextChan + 1,
      pc := MainPc.spawn i s.nextChan }
  | MainPc.spawn i stopCh =>
    some { s with
      trace := s.trace ++ [Event.go stopCh i],
      watcher := WatchPc.addEventHandler stopCh i,
      pc := MainPc.makeSig stopCh }
  | MainPc.makeSig stopCh =>
    some { s with
      trace := s.trace ++ [Event.makeChan s.nextChan ChanElem.signal],
      nextChan := s.nextChan + 1,
      pc := MainPc.notify stopCh s.nextChan }
  | MainPc.notify stopCh sigCh =>
    some { s with
      trace := s.trace ++ [Event.notify sigCh [os.Kill, os.Interrupt]],
      subscribed := some (sigCh, [os.Kill, os.Interrupt]),
      pc := MainPc.receive stopCh sigCh }
  | MainPc.receive stopCh sigCh =>
    match s.delivered with
    | none => none
    | some sig =>
      some { s with
        trace := s.trace ++ [Event.recv sigCh sig],
        delivered := none,
        pc := MainPc.close stopCh }
  | MainPc.close stopCh =>
    if stopCh ∈ s.closed then some { s with status := Status.crashed }
    else
      some { s with
        trace := s.trace ++ [Event.close stopCh],
        closed := stopCh :: s.closed,
        pc := MainPc.ret }
  | MainPc.ret => some { s with status := Status.exited 0 }

/-- Function `startWatching`, one statement at a time: `AddEventHandler`, then
`Run`, inside which the running handler ends or, once the stop channel is
closed, `Run` returns; `none` when the goroutine has nothing to do. A handler
that panics (the type assertion of line 66) is not recovered: the process ends
with exit code 2. -/
def startWatching (s : Proc) : Option Proc :=
  match s.watcher with
  | WatchPc.absent => none
  | WatchPc.addEventHandler stopCh i =>
    some { s with
      trace := s.trace ++ [Event.addEventHandler i],
      registered := some handlers,
      watcher := WatchPc.run stopCh i }
  | WatchPc.run stopCh i =>
    some { s with trace := s.trace ++ [Event.run i stopCh], watcher := WatchPc.idle stopCh }
  | WatchPc.idle stopCh =>
    if stopCh ∈ s.closed then
      some { s with trace := s.trace ++ [Event.runReturn], watcher := WatchPc.returned }
    else none
  | WatchPc.handling stopCh n =>
    match s.registered with
    | none => none
    | some h =>
      let r := dispatch h n
      match r.panic with
      | none =>
        some { s with
          trace := s.trace ++ (r.logs.map Event.log ++ [Event.handlerEnd n none]),
          watcher := WatchPc.idle stopCh }
      | some p =>
        some { s with
          trace := s.trace ++ (r.logs.map Event.log ++ [Event.handlerEnd n (some p)]),
          watcher := WatchPc.panicked p,
          status := Status.crashed }
  | WatchPc.panicked _ => none
  | WatchPc.returned => none

/-- The informer starts a handler: only from inside `Run`, with handlers
registered and no other handler executing. -/
def stepDeliver (n : Notification) (s : Proc) : Option Proc :=
  match s.watcher, s.registered with
  | WatchPc.idle stopCh, some _ =>
    some { s with
      trace := s.trace ++ [Event.handlerStart n],
      watcher := WatchPc.handling stopCh n }
  | _, _ => none

/-- Arrival of a signal. A signal that cannot be caught, or that
`signal.Notify` has not been asked for, ends the process (the default action
for `SIGHUP`, `SIGINT` and `SIGTERM`). A signal that was asked for is sent on
the registered channel without blocking: the channel has no buffer, so the
value is handed over when `main` is blocked in the receive and is dropped
otherwise. -/
def stepSignal (sig : Signal) (s : Proc) : Option Proc :=
  if sig.catchable = false then some { s with status := Status.killed sig }
  else
    match s.subscribed with
    | none => some { s with status := Status.killed sig }
    | some (ch, sigs) =>
      if sig ∈ sigs then
        match s.pc, s.delivered with
        | MainPc.receive _ sigCh, none =>
          if sigCh = ch then
            some { s with trace := s.trace ++ [Event.send ch sig], delivered := some sig }
          else some s
        | _, _ => some s
      else some { s with status := Status.killed sig }

/-- One step of the process; `none` when the action is not enabled. Nothing
moves once the process has ended. -/
def step (w : World) (a : Action) (s : Proc) : Option Proc :=
  match s.status with
  | Status.running =>
    match a with
    | Action.main => main w s
    | Action.watch => startWatching s
    | Action.deliver n => stepDeliver n s
    | Action.signal sig => stepSignal sig s
  | _ => none

/-- Run of a schedule from a state; an action that is not enabled is skipped. -/
def execFrom (w : World) (s : Proc) (sched : List Action) : Proc :=
  sched.foldl (fun s a => (step w a s).getD s) s

/-- Run of a schedule from launch. -/
def exec (w : World) (sched : List Action) : Proc :=
  execFrom w Proc.init sched

/-! ## Sample worlds and schedules -/

/-- Outside a cluster, with `KUBECONFIG` naming a readable file. -/
def laptop : World where
  environ := fun k => if k = "KUBECONFIG" then some "/home/dev/.kube/config" else none
  InClusterConfig := (none, some "unable to load in-cluster configuration")
  BuildConfigFromFlags := fun _ path => (some { Host := path }, none)
  NewForConfig := fun cfg =>
    match cfg with
    | some c => (some { cfg := c }, none)
    | none => (none, some "config is nil")

/-- Inside a cluster, `KUBECONFIG` not set. -/
def pod : World where
  environ := fun _ => none
  InClusterConfig := (some { Host := "https://10.0.0.1:443" }, none)
  BuildConfigFromFlags := fun _ _ => (none, some "no such file")
  NewForConfig := fun cfg =>
    match cfg with
    | some c => (some { cfg := c }, none)
    | none => (none, some "config is nil")

/-- Outside a cluster with no `KUBECONFIG`: no source of credentials. -/
def bare : World where
  environ := fun _ => none
  InClusterConfig := (none, some "unable to load in-cluster configuration")
  BuildConfigFromFlags := fun _ _ => (none, some "no such file")
  NewForConfig := fun cfg =>
    match cfg with
    | some c => (some { cfg := c }, none)
    | none => (none, some "config is nil")

/-- Inside a cluster whose configuration the dynamic client rejects. -/
def badClient : World where
  environ := fun _ => none
  InClusterConfig := (some { Host := "https://10.0.0.1:443" }, none)
  BuildConfigFromFlags := fun _ _ => (none, some "no such file")
  NewForConfig := fun _ => (none, some "host must be a URL or a host:port pair")

/-- Schedule: `main` runs up to its receive while the goroutine registers the
handlers and enters `Run`. -/
def untilWait : List Action :=
  [Action.main, Action.main, Action.main, Action.main, Action.main, Action.main,
   Action.main, Action.watch, Action.watch, Action.main, Action.main]


/-- Schedule of a complete run: start, one add notification that is handled,
`SIGINT`, close, the return of `Run`, the return of `main`. -/
def fullRun : List Action :=
  untilWait ++ [Action.deliver (Notification.add (Interface.unstructured (some web))),
    Action.watch, Action.signal Signal.SIGINT, Action.main, Action.main, Action.watch,
    Action.main]

/-- The informer `main` creates in the world `pod`. -/
def podInformer : Informer :=
  { factory := { client := some { cfg := { Host := "https://10.0.0.1:443" } },
                 defaultResync := 0, ns := "", tweakListOptions := none },
    gvr := { Group := "apps", Version := "v1", Resource := "deployments" } }

/-! ## The steps as a relation -/

/-- The enabled steps of a live process, one constructor per statement and per
outcome. It is the case analysis of `step`, see `step_sound`. -/
inductive Step (w : World) : Proc → Proc → Prop where
  | configFail (s : Proc) (cfg : Option Config) (err : Error) :
    s.pc = MainPc.config → restConfig w = (cfg, some err) →
    Step w s { s with
      trace := s.trace ++ [Event.log (WithErrorFatal err "could not get config"), Event.exit 1],
      status := Status.exited 1 }
  | configOk (s : Proc) (cfg : Option Config) :
    s.pc = MainPc.config → restConfig w = (cfg, none) →
    Step w s { s with pc := MainPc.client cfg }
  | clientFail (s : Proc) (cfg : Option Config) (dc : Option Client) (err : Error) :
    s.pc = MainPc.client cfg → w.NewForConfig cfg = (dc, some err) →
    Step w s { s with
      trace := s.trace ++ [Event.newForConfig cfg,
        Event.log (WithErrorFatal err "could not generate dynamic client for config"),
        Event.exit 1],
      status := Status.exited 1 }
  | clientOk (s : Proc) (cfg : Option Config) (dc : Option Client) :
    s.pc = MainPc.client cfg → w.NewForConfig cfg = (dc, none) →
    Step w s { s with trace := s.trace ++ [Event.newForConfig cfg], pc := MainPc.factory dc }
  | factory (s : Proc) (dc : Option Client) :
    s.pc = MainPc.factory dc →
    Step w s { s with
      trace := s.trace ++
        [Event.newFactory (NewFilteredDynamicSharedInformerFactory dc 0 v1.NamespaceAll none)],
      pc := MainPc.parse (NewFilteredDynamicSharedInformerFactory dc 0 v1.NamespaceAll none) }
  | parse (s : Proc) (f : Factory) :
    s.pc = MainPc.parse f →
    Step w s { s with
      trace := s.trace ++ [Event.parseResourceArg "deployments.v1.apps"],
      pc := MainPc.informer f (ParseResourceArg "deployments.v1.apps").1 }
  | informerNil (s : Proc) (f : Factory) :
    s.pc = MainPc.informer f none →
    Step w s { s with status := Status.crashed }
  | informerOk (s : Proc) (f : Factory) (g : GroupVersionResource) :
    s.pc = MainPc.informer f (some g) →
    Step w s { s with
      trace := s.trace ++ [Event.forResource (f.ForResource g)],
      pc := MainPc.makeStop (f.ForResource g) }
  | makeStop (s : Proc) (i : Informer) :
    s.pc = MainPc.makeStop i →
    Step w s { s with
      trace := s.trace ++ [Event.makeChan s.nextChan ChanElem.struct],
      nextChan := s.nextChan + 1,
      pc := MainPc.spawn i s.nextChan }
  | spawn (s : Proc) (i : Informer) (stopCh : Chan) :
    s.pc = MainPc.spawn i stopCh →
    Step w s { s with
      trace := s.trace ++ [Event.go stopCh i],
      watcher := WatchPc.addEventHandler stopCh i,
      pc := MainPc.makeSig stopCh }
  | makeSig (s : Proc) (stopCh : Chan) :
    s.pc = MainPc.makeSig stopCh →
    Step w s { s with
      trace := s.trace ++ [Event.makeChan s.nextChan ChanElem.signal],
      nextChan := s.nextChan + 1,
      pc := MainPc.notify stopCh s.nextChan }
  | notify (s : Proc) (stopCh sigCh : Chan) :
    s.pc = MainPc.notify stopCh sigCh →
    Step w s { s with
      trace := s.trace ++ [Event.notify sigCh [os.Kill, os.Interrupt]],
      subscribed := some (sigCh, [os.Kill, os.Interrupt]),
      pc := MainPc.receive stopCh sigCh }
  | receive (s : Proc) (stopCh sigCh : Chan) (sig : Signal) :
    s.pc = MainPc.receive stopCh sigCh → s.delivered = some sig →
    Step w s { s with
      trace := s.trace ++ [Event.recv sigCh sig],
      delivered := none,
      pc := MainPc.close stopCh }
  | closeClosed (s : Proc) (stopCh : Chan) :
    s.pc = MainPc.close stopCh → stopCh ∈ s.closed →
    Step w s { s with status := Status.crashed }
  | close (s : Proc) (stopCh : Chan) :
    s.pc = MainPc.close stopCh → stopCh ∉ s.closed →
    Step w s { s with
      trace := s.trace ++ [Event.close stopCh],
      closed := stopCh :: s.closed,
      pc := MainPc.ret }
  | ret (s : Proc) :
    s.pc = MainPc.ret →
    Step w s { s with status := Status.exited 0 }
  | watchAdd (s : Proc) (stopCh : Chan) (i : Informer) :
    s.watcher = WatchPc.addEventHandler stopCh i →
    Step w s { s with
      trace := s.trace ++ [Event.addEventHandler i],
      registered := some handlers,
      watcher := WatchPc.run stopCh i }
  | watchRun (s : Proc) (stopCh : Chan) (i : Informer) :
    s.watcher = WatchPc.run stopCh i →
    Step w s { s with trace := s.trace ++ [Event.run i stopCh], watcher := WatchPc.idle stopCh }
  | watchReturn (s : Proc) (stopCh : Chan) :
    s.watcher = WatchPc.idle stopCh → stopCh ∈ s.closed →
    Step w s { s with trace := s.trace ++ [Event.runReturn], watcher := WatchPc.returned }
  | handlerEnd (s : Proc) (stopCh : Chan) (n : Notification) (h : ResourceEventHandlerFuncs) :
    s.watcher = WatchPc.handling stopCh n → s.registered = some h →
    (dispatch h n).panic = none →
    Step w s { s with
      trace := s.trace ++ ((dispatch h n).logs.map Event.log ++ [Event.handlerEnd n none]),
      watcher := WatchPc.idle stopCh }
  | handlerPanic (s : Proc) (stopCh : Chan) (n : Notification) (h : ResourceEventHandlerFuncs)
      (p : Panic) :
    s.watcher = WatchPc.handling stopCh n → s.registered = some h →
    (dispatch h n).panic = some p →
    Step w s { s with
      trace := s.trace ++ ((dispatch h n).logs.map Event.log ++ [Event.handlerEnd n (some p)]),
      watcher := WatchPc.panicked p,
      status := Status.crashed }
  | handlerStart (s : Proc) (stopCh : Chan) (n : Notification) (h : ResourceEventHandlerFuncs) :
    s.watcher = WatchPc.idle stopCh → s.registered = some h →
    Step w s { s with
      trace := s.trace ++ [Event.handlerStart n],
      watcher := WatchPc.handling stopCh n }
  | signalKills (s : Proc) (sig : Signal) :
    (sig.catchable = false ∨ s.subscribed = none ∨
      ∃ ch sigs, s.subscribed = some (ch, sigs) ∧ sig ∉ sigs) →
    Step w s { s with status := Status.killed sig }
  | signalSent (s : Proc) (sig : Signal) (stopCh ch : Chan) (sigs : List Signal) :
    s.subscribed = some (ch, sigs) → sig ∈ sigs → s.pc = MainPc.receive stopCh ch →
    s.delivered = none →
    Step w s { s with trace := s.trace ++ [Event.send ch sig], delivered := some sig }
  | signalDropped (s : Proc) (sig : Signal) :
    Step w s s

/-- Exit code of a process that ended with one: the argument of `os.Exit`, 0
for the return of `main`, 2 for an unrecovered panic. -/
def Status.exitCode : Status → Option Nat
  | Status.exited code => some code
  | Status.crashed => some 2
  | _ => none

/-- An object of a type the add handler does not expect. -/
def pod1 : Interface := Interface.other "*v1.Pod"

/-! ## Invariants of the process -/

/-- States a run can be in when `restConfig` fails with `err`. -/
def ConfigFailed (err : Error) (s : Proc) : Prop :=
  s.watcher = WatchPc.absent ∧ s.subscribed = none ∧ s.registered = none ∧ s.closed = [] ∧
  ((s.pc = MainPc.config ∧ s.trace = []) ∨
   (s.status = Status.exited 1 ∧
    s.trace = [Event.log (WithErrorFatal err "could not get config"), Event.exit 1]))

/-- Informers created so far, read off a trace. -/
def informersOf (tr : List Event) : List Informer :=
  tr.filterMap fun ev =>
    match ev with
    | Event.forResource i => some i
    | _ => none

/-- Channels closed so far, read off a trace. -/
def closesOf (tr : List Event) : List Chan :=
  tr.filterMap fun ev =>
    match ev with
    | Event.close ch => some ch
    | _ => none

/-- Control points of `main` before the informer exists (lines 19-38). -/
def MainPc.beforeInformer : MainPc → Bool
  | MainPc.config => true
  | MainPc.client _ => true
  | MainPc.factory _ => true
  | MainPc.parse _ => true
  | MainPc.informer _ _ => true
  | _ => false

/-- Control points of `main` after `signal.Notify` (lines 46-48). -/
def MainPc.afterNotify : MainPc → Bool
  | MainPc.receive _ _ => true
  | MainPc.close _ => true
  | MainPc.ret => true
  | _ => false

/-- The local `stopCh` of `main` where it is live. -/
def MainPc.stopChan : MainPc → Option Chan
  | MainPc.spawn _ ch => some ch
  | MainPc.makeSig ch => some ch
  | MainPc.notify ch _ => some ch
  | MainPc.receive ch _ => some ch
  | MainPc.close ch => some ch
  | _ => none

/-- The local `sigCh` of `main` where it is live. -/
def MainPc.sigChan : MainPc → Option Chan
  | MainPc.notify _ ch => some ch
  | MainPc.receive _ ch => some ch
  | _ => none

/-- A factory with the fixed arguments of line 32: resync interval 0,
namespace `v1.NamespaceAll`, no tweak. -/
def Factory.Fixed (f : Factory) : Prop :=
  f.defaultResync = 0 ∧ f.ns = v1.NamespaceAll ∧ f.tweakListOptions = none

/-- An informer for `deployments.v1.apps` out of a factory with the fixed
arguments. -/
def Informer.Fixed (i : Informer) : Prop :=
  i.factory.Fixed ∧ i.gvr = { Group := "apps", Version := "v1", Resource := "deployments" }

/-- Invariant behind C7: what is known about the factory and the informer at
each control point of `main`. -/
def InformerInv (s : Proc) : Prop :=
  (∀ f, s.pc = MainPc.parse f → f.Fixed) ∧
  (∀ f g, s.pc = MainPc.informer f g → f.Fixed ∧
    g = some { Group := "apps", Version := "v1", Resource := "deployments" }) ∧
  (∀ i, s.pc = MainPc.makeStop i → Event.forResource i ∈ s.trace) ∧
  (∀ i ch, s.pc = MainPc.spawn i ch → Event.forResource i ∈ s.trace) ∧
  (∀ ch i, Event.go ch i ∈ s.trace → Event.forResource i ∈ s.trace) ∧
  ((s.pc.beforeInformer = true ∧ informersOf s.trace = []) ∨
   (s.pc.beforeInformer = false ∧ ∃ i, i.Fixed ∧ informersOf s.trace = [i]))

/-- Invariant behind C5, for a world in which `restConfig` returns `cfg`
without error and the dynamic client is built without error. -/
def NoFatalInv (cfg : Option Config) (s : Proc) : Prop :=
  (∀ c, s.pc = MainPc.client c → c = cfg) ∧
  (∀ f g, s.pc = MainPc.informer f g → g ≠ none) ∧
  (s.pc ≠ MainPc.ret → s.closed = []) ∧
  (∀ h, s.registered = some h → h = handlers) ∧
  (∀ e, Event.log e ∈ s.trace → e.level = Level.info) ∧
  (∀ c, Event.exit c ∉ s.trace) ∧
  (s.status = Status.running ∨ s.status = Status.exited 0 ∨
    (∃ sig, s.status = Status.killed sig) ∨
    (s.status = Status.crashed ∧ ∃ n p, Event.handlerEnd n (some p) ∈ s.trace))

/-- Every event of a trace satisfies `Q` with respect to the events before
it. -/
def History (Q : List Event → Event → Prop) (tr : List Event) : Prop :=
  ∀ pre x post, tr = pre ++ x :: post → Q pre x

/-- What must have happened before an event: handlers are registered on the
informer before `Run` is called on it, `Run` and the `go` statement get a
channel `main` made as `chan struct{}`, and a channel is closed only after a
value was received from a signal channel. -/
def Ordered (pre : List Event) : Event → Prop
  | Event.run i ch =>
    Event.addEventHandler i ∈ pre ∧ Event.go ch i ∈ pre ∧
    Event.makeChan ch ChanElem.struct ∈ pre
  | Event.go ch _ => Event.makeChan ch ChanElem.struct ∈ pre
  | Event.close ch =>
    Event.makeChan ch ChanElem.struct ∈ pre ∧
    ∃ c sig, Event.recv c sig ∈ pre ∧ Event.makeChan c ChanElem.signal ∈ pre
  | _ => True

/-- Invariant behind C10. -/
def OrderInv (s : Proc) : Prop :=
  History Ordered s.trace ∧
  (∀ c k, Event.makeChan c k ∈ s.trace → c < s.nextChan) ∧
  (∀ ch i, s.watcher = WatchPc.addEventHandler ch i →
    Event.go ch i ∈ s.trace ∧ Event.makeChan ch ChanElem.struct ∈ s.trace) ∧
  (∀ ch i, s.watcher = WatchPc.run ch i →
    Event.addEventHandler i ∈ s.trace ∧ Event.go ch i ∈ s.trace ∧
    Event.makeChan ch ChanElem.struct ∈ s.trace) ∧
  (∀ ch, s.pc.stopChan = some ch → Event.makeChan ch ChanElem.struct ∈ s.trace) ∧
  (∀ c, s.pc.sigChan = some c →
    Event.makeChan c ChanElem.signal ∈ s.trace ∧ Event.makeChan c ChanElem.struct ∉ s.trace) ∧
  (∀ ch, s.pc = MainPc.close ch →
    ∃ c sig, Event.recv c sig ∈ s.trace ∧ Event.makeChan c ChanElem.signal ∈ s.trace) ∧
  ((s.pc = MainPc.ret ∧ (closesOf s.trace).length = 1) ∨
   (s.pc ≠ MainPc.ret ∧ closesOf s.trace = [])) ∧
  (∀ c sig, Event.send c sig ∈ s.trace → Event.makeChan c ChanElem.struct ∉ s.trace) ∧
  (s.subscribed = none → ∀ c sig, Event.send c sig ∉ s.trace) ∧
  (∀ c sigs, s.subscribed = some (c, sigs) →
    s.pc.afterNotify = true ∧ Event.makeChan c ChanElem.struct ∉ s.trace) ∧
  (s.registered = none ∨ s.registered = some handlers) ∧
  (∀ i, Event.addEventHandler i ∈ s.trace → s.registered = some handlers)

/-! ## Theorems: `restConfig` -/

/-- C1: `restConfig` picks its source from `KUBECONFIG` alone. When the
variable is unset or empty the result is that of in-cluster resolution, when
it holds a non-empty path the result is that of
`BuildConfigFromFlags("", path)`, whatever in-cluster resolution answered; in
both cases an error of the source gives `(nil, err)` and success gives
`(cfg, nil)`. -/
theorem restConfig_source (w : World) :
    ((w.environ "KUBECONFIG" = none ∨ w.environ "KUBECONFIG" = some "") →
      (∀ cfg err, w.InClusterConfig = (cfg, some err) → restConfig w = (none, some err)) ∧
      (∀ cfg, w.InClusterConfig = (cfg, none) → restConfig w = (cfg, none))) ∧
    (∀ path, w.environ "KUBECONFIG" = some path → path ≠ "" →
      (∀ cfg err, w.BuildConfigFromFlags "" path = (cfg, some err) →
        restConfig w = (none, some err)) ∧
      (∀ cfg, w.BuildConfigFromFlags "" path = (cfg, none) → restConfig w = (cfg, none))) := by
  refine ⟨?_, ?_⟩
  · intro h
    have hg : Getenv w "KUBECONFIG" = "" := by
      rcases h with h | h <;> simp [Getenv, h]
    refine ⟨?_, ?_⟩
    · intro cfg err hc
      simp [restConfig, hg, hc]
    · intro cfg hc
      simp [restConfig, hg, hc]
  · intro path hp hne
    have hg : Getenv w "KUBECONFIG" = path := by simp [Getenv, hp]
    refine ⟨?_, ?_⟩
    · intro cfg err hc
      simp [restConfig, hg, hne, hc]
    · intro cfg hc
      simp [restConfig, hg, hne, hc]

/-- Witness for C1: in a pod without `KUBECONFIG` the in-cluster configuration
is returned; on a laptop with `KUBECONFIG` set the file wins although
in-cluster resolution failed. -/
theorem restConfig_source_witness :
    restConfig pod = (some { Host := "https://10.0.0.1:443" }, none) ∧
    restConfig bare = (none, some "unable to load in-cluster configuration") ∧
    restConfig laptop = (some { Host := "/home/dev/.kube/config" }, none) :=
  ⟨((restConfig_source pod).1 (Or.inl rfl)).2 _ rfl,
   ((restConfig_source bare).1 (Or.inl rfl)).1 none _ rfl,
   ((restConfig_source laptop).2 "/home/dev/.kube/config" (by decide) (by decide)).2 _ rfl⟩

/-! ## Theorems: the handlers -/

/-- Counterexample to C3: the update handler, called for the deployment
`default/web`, writes no entry that carries its name, namespace and labels;
neither does the delete handler. -/
theorem update_delete_log_no_object_fields :
    (¬ ∃ e ∈ (dispatch handlers (Notification.update (Interface.unstructured (some web))
        (Interface.unstructured (some web2)))).logs, Carries e web2) ∧
    (¬ ∃ e ∈ (dispatch handlers (Notification.delete (Interface.unstructured (some web)))).logs,
        Carries e web) := by
  decide

/-- C3, amended: for an add notification about a non-nil
`*unstructured.Unstructured` the handler writes a log entry whose fields carry
the name, namespace and labels of that object; for every update notification
the handler writes one entry, and it has no fields. -/
theorem handler_log_fields (u : Unstructured) (oldObj obj : Interface) :
    (∃ e ∈ (dispatch handlers (Notification.add (Interface.unstructured (some u)))).logs,
        Carries e u) ∧
    (∃ e, (dispatch handlers (Notification.update oldObj obj)).logs = [e] ∧ e.fields = []) := by
  refine ⟨⟨_, List.mem_singleton.mpr rfl, ?_⟩, ⟨_, rfl, rfl⟩⟩
  simp [Carries, WithFieldsInfo, List.lookup]

/-- C6: the update handler and the delete handler behave alike on every
argument: each returns without a panic after writing exactly one entry, at
info level, with the message `received update event!` and no fields. -/
theorem update_delete_identical (oldObj obj deleted : Interface) :
    handlers.UpdateFunc oldObj obj =
      { logs := [{ level := Level.info, msg := "received update event!", fields := [] }],
        panic := none } ∧
    handlers.DeleteFunc deleted =
      { logs := [{ level := Level.info, msg := "received update event!", fields := [] }],
        panic := none } ∧
    dispatch handlers (Notification.update oldObj obj) =
      dispatch handlers (Notification.delete deleted) :=
  ⟨rfl, rfl, rfl⟩

/-- Counterexample to C9: a nil pointer of type `*unstructured.Unstructured`
has the dynamic type of the first case of the claim and is in neither case.
The type assertion succeeds, the accessor call on the nil receiver panics, and
the handler logs nothing: the outcome is neither the one entry of the first
case nor the failed type assertion of the second, so the two cases do not
characterise the handler on every argument. -/
theorem add_handler_nil_pointer :
    handlers.AddFunc (Interface.unstructured none) =
      { logs := [], panic := some Panic.nilDereference } ∧
    ¬ ∀ obj : Interface,
        (∃ u, obj = Interface.unstructured (some u) ∧
          handlers.AddFunc obj =
            { logs := [{ level := Level.info, msg := "received add event!",
                         fields := [("name", FieldValue.str u.GetName),
                                    ("namespace", FieldValue.str u.GetNamespace),
                                    ("labels", FieldValue.strMap u.GetLabels)] }],
              panic := none }) ∨
        handlers.AddFunc obj = { logs := [], panic := some Panic.typeAssertion } := by
  refine ⟨rfl, ?_⟩
  intro h
  rcases h (Interface.unstructured none) with ⟨u, hu, _⟩ | h2
  · cases hu
  · cases h2

/-- C9, amended: the add handler, by dynamic type of its argument and, for a
`*unstructured.Unstructured`, by whether the pointer is nil. For a non-nil
`*unstructured.Unstructured` it writes exactly one entry, at info level, with
message `received add event!` and the three fields name, namespace and labels
read from the object, and returns; for an argument of any other dynamic type,
the untyped nil included, the type assertion panics and nothing is logged; for
a nil `*unstructured.Unstructured` the accessor call panics and nothing is
logged. Every argument is in exactly one of the three cases. -/
theorem add_handler_by_dynamic_type :
    (∀ u : Unstructured, handlers.AddFunc (Interface.unstructured (some u)) =
      { logs := [{ level := Level.info, msg := "received add event!",
                   fields := [("name", FieldValue.str u.GetName),
                              ("namespace", FieldValue.str u.GetNamespace),
                              ("labels", FieldValue.strMap u.GetLabels)] }],
        panic := none }) ∧
    (∀ obj : Interface, (∀ p, obj ≠ Interface.unstructured p) →
      handlers.AddFunc obj = { logs := [], panic := some Panic.typeAssertion }) ∧
    handlers.AddFunc (Interface.unstructured none) =
      { logs := [], panic := some Panic.nilDereference } ∧
    (∀ obj : Interface, (∃ u, obj = Interface.unstructured (some u)) ∨
      obj = Interface.unstructured none ∨ ∀ p, obj ≠ Interface.unstructured p) := by
  refine ⟨fun u => rfl, ?_, rfl, ?_⟩
  · intro obj h
    cases obj with
    | nil => rfl
    | unstructured p => exact absurd rfl (h p)
    | other t => rfl
  · intro obj
    cases obj with
    | nil => exact Or.inr (Or.inr (by intro p h; cases h))
    | unstructured p =>
      cases p with
      | none => exact Or.inr (Or.inl rfl)
      | some u => exact Or.inl ⟨u, rfl⟩
    | other t => exact Or.inr (Or.inr (by intro p h; cases h))

/-- Witness for C9: the object `default/web` with labels `app=web`, the untyped
nil, and a value of another type. -/
theorem add_handler_by_dynamic_type_witness :
    handlers.AddFunc (Interface.unstructured (some web)) =
      { logs := [{ level := Level.info, msg := "received add event!",
                   fields := [("name", FieldValue.str "web"),
                              ("namespace", FieldValue.str "default"),
                              ("labels", FieldValue.strMap [("app", "web")])] }],
        panic := none } ∧
    handlers.AddFunc Interface.nil = { logs := [], panic := some Panic.typeAssertion } ∧
    handlers.AddFunc (Interface.other "cache.DeletedFinalStateUnknown") =
      { logs := [], panic := some Panic.typeAssertion } :=
  ⟨add_handler_by_dynamic_type.1 web,
   add_handler_by_dynamic_type.2.1 Interface.nil (by intro p h; cases h),
   add_handler_by_dynamic_type.2.1 (Interface.other "cache.DeletedFinalStateUnknown")
     (by intro p h; cases h)⟩

/-! ## Theorems: runs of the process -/

/-- A property kept by every enabled step holds along every schedule. -/
theorem execFrom_invariant (w : World) (P : Proc → Prop)
    (hstep : ∀ s a s', P s → step w a s = some s' → P s') :
    ∀ (sched : List Action) (s : Proc), P s → P (execFrom w s sched) := by
  intro sched
  induction sched with
  | nil => intro s hs; exact hs
  | cons a rest ih =>
    intro s hs
    have hcons : execFrom w s (a :: rest) = execFrom w ((step w a s).getD s) rest := rfl
    rw [hcons]
    apply ih
    cases hst : step w a s with
    | none => simpa using hs
    | some s' => simpa using hstep s a s' hs hst

/-- Nothing moves once the process has ended. -/
theorem step_ended (w : World) (a : Action) (s : Proc) (h : s.status ≠ Status.running) :
    step w a s = none := by
  unfold step
  split
  · rename_i hrun; exact absurd hrun h
  · rfl

/-- An enabled step starts from a live process. -/
theorem step_running (w : World) (a : Action) (s s' : Proc) (h : step w a s = some s') :
    s.status = Status.running := by
  by_contra hne
  rw [step_ended w a s hne] at h
  cases h

/-- A schedule leaves an ended process as it is. -/
theorem execFrom_ended (w : World) (s : Proc) (h : s.status ≠ Status.running)
    (sched : List Action) : execFrom w s sched = s := by
  induction sched with
  | nil => rfl
  | cons a rest ih =>
    have hcons : execFrom w s (a :: rest) = execFrom w ((step w a s).getD s) rest := rfl
    rw [hcons, step_ended w a s h]
    simpa using ih

/-- Every enabled step of the step function is a step of the relation. -/
theorem step_sound (w : World) (a : Action) (s s' : Proc) (h : step w a s = some s') :
    Step w s s' := by
  have hrun := step_running w a s s' h
  unfold step at h
  rw [hrun] at h
  cases a with
  | main =>
    simp only [main] at h
    split at h
    · rename_i hpc
      split at h
      · rename_i c err hrc
        cases h
        exact Step.configFail s c err hpc hrc
      · rename_i cfg hrc
        cases h
        exact Step.configOk s cfg hpc hrc
    · rename_i cfg hpc
      split at h
      · rename_i d err hn
        cases h
        exact Step.clientFail s cfg d err hpc hn
      · rename_i dc hn
        cases h
        exact Step.clientOk s cfg dc hpc hn
    · rename_i dc hpc
      cases h
      exact Step.factory s dc hpc
    · rename_i f hpc
      cases h
      exact Step.parse s f hpc
    · rename_i f gvr hpc
      split at h
      · cases h
        exact Step.informerNil s f hpc
      · rename_i g
        cases h
        exact Step.informerOk s f g hpc
    · rename_i i hpc
      cases h
      exact Step.makeStop s i hpc
    · rename_i i stopCh hpc
      cases h
      exact Step.spawn s i stopCh hpc
    · rename_i stopCh hpc
      cases h
      exact Step.makeSig s stopCh hpc
    · rename_i stopCh sigCh hpc
      cases h
      exact Step.notify s stopCh sigCh hpc
    · rename_i stopCh sigCh hpc
      split at h
      · cases h
      · rename_i sig hd
        cases h
        exact Step.receive s stopCh sigCh sig hpc hd
    · rename_i stopCh hpc
      split at h
      · rename_i hc
        cases h
        exact Step.closeClosed s stopCh hpc hc
      · rename_i hc
        cases h
        exact Step.close s stopCh hpc hc
    · rename_i hpc
      cases h
      exact Step.ret s hpc
  | watch =>
    simp only [startWatching] at h
    split at h
    · cases h
    · rename_i stopCh i hw
      cases h
      exact Step.watchAdd s stopCh i hw
    · rename_i stopCh i hw
      cases h
      exact Step.watchRun s stopCh i hw
    · rename_i stopCh hw
      split at h
      · rename_i hc
        cases h
        exact Step.watchReturn s stopCh hw hc
      · cases h
    · rename_i stopCh n hw
      split at h
      · cases h
      · rename_i hd hr
        split at h
        · rename_i hp
          cases h
          exact Step.handlerEnd s stopCh n hd hw hr hp
        · rename_i p hp
          cases h
          exact Step.handlerPanic s stopCh n hd p hw hr hp
    · cases h
    · cases h
  | deliver n =>
    simp only [stepDeliver] at h
    split at h
    · rename_i stopCh hd hw hr
      cases h
      exact Step.handlerStart s stopCh n hd hw hr
    · cases h
  | signal sig =>
    simp only [stepSignal] at h
    split at h
    · rename_i hc
      cases h
      exact Step.signalKills s sig (Or.inl hc)
    · split at h
      · rename_i hsub
        cases h
        exact Step.signalKills s sig (Or.inr (Or.inl hsub))
      · rename_i ch sigs hsub
        split at h
        · rename_i hmem
          split at h
          · rename_i stopCh sigCh hpc hd
            split at h
            · rename_i heq
              cases h
              subst heq
              exact Step.signalSent s sig stopCh sigCh sigs hsub hmem hpc hd
            · cases h
              exact Step.signalDropped s sig
          · cases h
            exact Step.signalDropped s sig
        · rename_i hmem
          cases h
          exact Step.signalKills s sig (Or.inr (Or.inr ⟨ch, sigs, hsub, hmem⟩))

/-- A property kept by every step of the relation holds along every schedule. -/
theorem exec_invariant (w : World) (P : Proc → Prop) (hinit : P Proc.init)
    (hstep : ∀ s s', s.status = Status.running → P s → Step w s s' → P s')
    (sched : List Action) : P (exec w sched) :=
  execFrom_invariant w P
    (fun s a s' hs hst => hstep s s' (step_running w a s s' hst) hs (step_sound w a s s' hst))
    sched Proc.init hinit

/-- The states of `ConfigFailed` are closed under steps when `restConfig`
fails. -/
theorem configFailed_step (w : World) (err : Error) (h : (restConfig w).2 = some err)
    (s : Proc) (a : Action) (s' : Proc) (hs : ConfigFailed err s)
    (hst : step w a s = some s') : ConfigFailed err s' := by
  have hrun := step_running w a s s' hst
  obtain ⟨hw, hsub, hreg, hcl, hpc | hpc⟩ := hs
  · obtain ⟨hpc, htr⟩ := hpc
    unfold step at hst
    rw [hrun] at hst
    cases a with
    | main =>
      simp only [main, hpc] at hst
      rcases hrc : restConfig w with ⟨c, e⟩
      rw [hrc] at h hst
      simp only at h
      subst h
      simp only [Option.some.injEq] at hst
      subst hst
      exact ⟨hw, hsub, hreg, hcl, Or.inr ⟨rfl, by simp [htr]⟩⟩
    | watch => simp [startWatching, hw] at hst
    | deliver n => simp [stepDeliver, hw] at hst
    | signal sig =>
      simp only [stepSignal, hsub] at hst
      split at hst <;>
      · simp only [Option.some.injEq] at hst
        subst hst
        exact ⟨hw, rfl, hreg, hcl, Or.inl ⟨hpc, htr⟩⟩
  · rw [hpc.1] at hrun
    cases hrun

/-- C2: a configuration error is fatal and immediate. When `restConfig`
returns an error, the first statement of `main` logs it at fatal level with the
message `could not get config` and the process exits with code 1; in every run
the trace holds nothing but that entry and that exit, so no dynamic client is
built, no factory or informer is created, `startWatching` is never started, no
handler is registered and no signal registration is made. -/
theorem config_error_fatal (w : World) (err : Error) (h : (restConfig w).2 = some err)
    (sched : List Action) :
    ((exec w (Action.main :: sched)).status = Status.exited 1 ∧
     (exec w (Action.main :: sched)).trace =
       [Event.log { level := Level.fatal, msg := "could not get config",
                    fields := [("error", FieldValue.err err)] },
        Event.exit 1]) ∧
    (∀ ev ∈ (exec w sched).trace,
       ev = Event.log { level := Level.fatal, msg := "could not get config",
                        fields := [("error", FieldValue.err err)] } ∨
       ev = Event.exit 1) ∧
    (exec w sched).watcher = WatchPc.absent ∧
    (exec w sched).registered = none ∧
    (exec w sched).subscribed = none ∧
    (exec w sched).closed = [] := by
  have hinit : ConfigFailed err Proc.init := ⟨rfl, rfl, rfl, rfl, Or.inl ⟨rfl, rfl⟩⟩
  have hall := execFrom_invariant w (ConfigFailed err) (configFailed_step w err h) sched
    Proc.init hinit
  refine ⟨?_, ?_, hall.1, hall.2.2.1, hall.2.1, hall.2.2.2.1⟩
  · have hfirst : step w Action.main Proc.init = some { Proc.init with
        trace := [Event.log (WithErrorFatal err "could not get config"), Event.exit 1],
        status := Status.exited 1 } := by
      rcases hrc : restConfig w with ⟨c, e⟩
      rw [hrc] at h
      simp only at h
      subst h
      simp [step, main, Proc.init, hrc]
    have hcons : exec w (Action.main :: sched) =
        execFrom w ((step w Action.main Proc.init).getD Proc.init) sched := rfl
    rw [hcons, hfirst, Option.getD_some, execFrom_ended w _ (by simp) sched]
    exact ⟨rfl, rfl⟩
  · intro ev hev
    rcases hall.2.2.2.2 with ⟨_, htr⟩ | ⟨_, htr⟩
    · change ev ∈ (execFrom w Proc.init sched).trace at hev
      rw [htr] at hev
      cases hev
    · change ev ∈ (execFrom w Proc.init sched).trace at hev
      rw [htr] at hev
      simpa [WithErrorFatal] using hev

/-- Witness for C2: with no source of credentials, every schedule that lets
`main` start ends in the fatal exit. -/
theorem config_error_fatal_witness :
    (restConfig bare).2 = some "unable to load in-cluster configuration" ∧
    (exec bare (Action.main :: untilWait)).status = Status.exited 1 ∧
    (exec bare (Action.main :: untilWait)).trace =
      [Event.log { level := Level.fatal, msg := "could not get config",
                   fields := [("error",
                     FieldValue.err "unable to load in-cluster configuration")] },
       Event.exit 1] ∧
    (exec bare untilWait).watcher = WatchPc.absent :=
  ⟨rfl, (config_error_fatal bare _ rfl untilWait).1.1, (config_error_fatal bare _ rfl untilWait).1.2,
   (config_error_fatal bare _ rfl untilWait).2.2.1⟩

/-- Trace projection `informersOf` distributes over concatenation. -/
theorem informersOf_append (a b : List Event) :
    informersOf (a ++ b) = informersOf a ++ informersOf b := by
  simp [informersOf, List.filterMap_append]

/-- Log entries create no informer. -/
theorem informersOf_logs (l : List Entry) : informersOf (l.map Event.log) = [] := by
  induction l with
  | nil => rfl
  | cons e t ih => simp [informersOf]

/-- Trace projection `closesOf` distributes over concatenation. -/
theorem closesOf_append (a b : List Event) : closesOf (a ++ b) = closesOf a ++ closesOf b := by
  simp [closesOf, List.filterMap_append]

/-- Log entries close no channel. -/
theorem closesOf_logs (l : List Entry) : closesOf (l.map Event.log) = [] := by
  induction l with
  | nil => rfl
  | cons e t ih => simp [closesOf]

/-- The constant of line 35 parses to a non-nil group-version-resource. -/
theorem parse_deployments :
    (ParseResourceArg "deployments.v1.apps").1 =
      some { Group := "apps", Version := "v1", Resource := "deployments" } := by
  decide

/-- Every handler of the program logs at info level only. -/
theorem dispatch_logs_info (n : Notification) :
    ∀ e ∈ (dispatch handlers n).logs, e.level = Level.info := by
  intro e he
  cases n with
  | add obj =>
    cases obj with
    | nil => simp [dispatch, handlers] at he
    | unstructured p =>
      cases p with
      | none => simp [dispatch, handlers] at he
      | some u =>
        simp [dispatch, handlers] at he
        subst he
        rfl
    | other t => simp [dispatch, handlers] at he
  | update oldObj obj =>
    simp [dispatch, handlers] at he
    subst he
    rfl
  | delete obj =>
    simp [dispatch, handlers] at he
    subst he
    rfl

/-- Extending a trace by one event keeps `History` exactly when the new event
is justified by the trace. -/
theorem history_snoc (Q : List Event → Event → Prop) (tr : List Event) (e : Event) :
    History Q (tr ++ [e]) ↔ History Q tr ∧ Q tr e := by
  constructor
  · intro h
    refine ⟨?_, h tr e [] rfl⟩
    intro pre x post heq
    exact h pre x (post ++ [e]) (by simp [heq])
  · rintro ⟨h, he⟩ pre x post heq
    rcases List.eq_nil_or_concat post with hp | ⟨post', y, hp⟩
    · subst hp
      obtain ⟨h3, h4⟩ := List.append_inj' (show tr ++ [e] = pre ++ [x] from heq) rfl
      cases h4
      subst h3
      exact he
    · subst hp
      have h2 : tr ++ [e] = (pre ++ x :: post') ++ [y] := by
        simp [heq, List.concat_eq_append]
      exact h pre x post' (List.append_inj' h2 rfl).1

/-- Events that need no justification can be appended to a trace in any
number. -/
theorem history_append_free (Q : List Event → Event → Prop) (tr es : List Event)
    (h : History Q tr) (hes : ∀ x ∈ es, ∀ pre, Q pre x) : History Q (tr ++ es) := by
  induction es using List.reverseRecOn with
  | nil => simpa using h
  | append_singleton es e ih =>
    rw [← List.append_assoc, history_snoc]
    exact ⟨ih (fun x hx => hes x (by simp [hx])), hes e (by simp) _⟩

/-- The invariant `NoFatalInv` is kept by every step when the dynamic client
is built without error. -/
theorem noFatalInv_step (w : World) (cfg : Option Config) (dc : Option Client)
    (hc : restConfig w = (cfg, none)) (hn : w.NewForConfig cfg = (dc, none))
    (s s' : Proc) (hrun : s.status = Status.running) (hs : NoFatalInv cfg s)
    (hst : Step w s s') : NoFatalInv cfg s' := by
  obtain ⟨h1, h2, h3, h4, h5, h6, h7⟩ := hs
  cases hst with
  | configFail c err hpc hrc => rw [hc] at hrc; cases hrc
  | configOk c hpc hrc =>
    rw [hc] at hrc
    cases hrc
    refine ⟨?_, ?_, ?_, h4, h5, h6, Or.inl hrun⟩
    · intro c hcl; cases hcl; rfl
    · intro f g hcl; cases hcl
    · intro _; exact h3 (by rw [hpc]; simp)
  | clientFail c d err hpc hnc =>
    have := h1 c hpc
    subst this
    rw [hn] at hnc
    cases hnc
  | clientOk c d hpc hnc =>
    refine ⟨?_, ?_, ?_, h4, ?_, ?_, Or.inl hrun⟩
    · intro c hcl; cases hcl
    · intro f g hcl; cases hcl
    · intro _; exact h3 (by rw [hpc]; simp)
    · intro e he; simp at he; exact h5 e he
    · intro c he; simp at he; exact h6 c he
  | factory d hpc =>
    refine ⟨?_, ?_, ?_, h4, ?_, ?_, Or.inl hrun⟩
    · intro c hcl; cases hcl
    · intro f g hcl; cases hcl
    · intro _; exact h3 (by rw [hpc]; simp)
    · intro e he; simp at he; exact h5 e he
    · intro c he; simp at he; exact h6 c he
  | parse f hpc =>
    refine ⟨?_, ?_, ?_, h4, ?_, ?_, Or.inl hrun⟩
    · intro c hcl; cases hcl
    · intro f g hcl
      cases hcl
      rw [parse_deployments]
      simp
    · intro _; exact h3 (by rw [hpc]; simp)
    · intro e he; simp at he; exact h5 e he
    · intro c he; simp at he; exact h6 c he
  | informerNil f hpc => exact absurd rfl (h2 f none hpc)
  | informerOk f g hpc =>
    refine ⟨?_, ?_, ?_, h4, ?_, ?_, Or.inl hrun⟩
    · intro c hcl; cases hcl
    · intro f g hcl; cases hcl
    · intro _; exact h3 (by rw [hpc]; simp)
    · intro e he; simp at he; exact h5 e he
    · intro c he; simp at he; exact h6 c he
  | makeStop i hpc =>
    refine ⟨?_, ?_, ?_, h4, ?_, ?_, Or.inl hrun⟩
    · intro c hcl; cases hcl
    · intro f g hcl; cases hcl
    · intro _; exact h3 (by rw [hpc]; simp)
    · intro e he; simp at he; exact h5 e he
    · intro c he; simp at he; exact h6 c he
  | spawn i ch hpc =>
    refine ⟨?_, ?_, ?_, h4, ?_, ?_, Or.inl hrun⟩
    · intro c hcl; cases hcl
    · intro f g hcl; cases hcl
    · intro _; exact h3 (by rw [hpc]; simp)
    · intro e he; simp at he; exact h5 e he
    · intro c he; simp at he; exact h6 c he
  | makeSig ch hpc =>
    refine ⟨?_, ?_, ?_, h4, ?_, ?_, Or.inl hrun⟩
    · intro c hcl; cases hcl
    · intro f g hcl; cases hcl
    · intro _; exact h3 (by rw [hpc]; simp)
    · intro e he; simp at he; exact h5 e he
    · intro c he; simp at he; exact h6 c he
  | notify ch sc hpc =>
    refine ⟨?_, ?_, ?_, h4, ?_, ?_, Or.inl hrun⟩
    · intro c hcl; cases hcl
    · intro f g hcl; cases hcl
    · intro _; exact h3 (by rw [hpc]; simp)
    · intro e he; simp at he; exact h5 e he
    · intro c he; simp at he; exact h6 c he
  | receive ch sc sig hpc hd =>
    refine ⟨?_, ?_, ?_, h4, ?_, ?_, Or.inl hrun⟩
    · intro c hcl; cases hcl
    · intro f g hcl; cases hcl
    · intro _; exact h3 (by rw [hpc]; simp)
    · intro e he; simp at he; exact h5 e he
    · intro c he; simp at he; exact h6 c he
  | closeClosed ch hpc hmem =>
    rw [h3 (by rw [hpc]; simp)] at hmem
    cases hmem
  | close ch hpc hmem =>
    refine ⟨?_, ?_, ?_, h4, ?_, ?_, Or.inl hrun⟩
    · intro c hcl; cases hcl
    · intro f g hcl; cases hcl
    · intro hne; exact absurd rfl hne
    · intro e he; simp at he; exact h5 e he
    · intro c he; simp at he; exact h6 c he
  | ret hpc => exact ⟨h1, h2, h3, h4, h5, h6, Or.inr (Or.inl rfl)⟩
  | watchAdd ch i hw =>
    refine ⟨h1, h2, h3, ?_, ?_, ?_, Or.inl hrun⟩
    · intro h hh; cases hh; rfl
    · intro e he; simp at he; exact h5 e he
    · intro c he; simp at he; exact h6 c he
  | watchRun ch i hw =>
    refine ⟨h1, h2, h3, h4, ?_, ?_, Or.inl hrun⟩
    · intro e he; simp at he; exact h5 e he
    · intro c he; simp at he; exact h6 c he
  | watchReturn ch hw hmem =>
    refine ⟨h1, h2, h3, h4, ?_, ?_, Or.inl hrun⟩
    · intro e he; simp at he; exact h5 e he
    · intro c he; simp at he; exact h6 c he
  | handlerEnd ch n h hw hr hp =>
    have hh := h4 h hr
    subst hh
    refine ⟨h1, h2, h3, h4, ?_, ?_, Or.inl hrun⟩
    · intro e he
      simp at he
      rcases he with he | he
      · exact h5 e he
      · exact dispatch_logs_info n e he
    · intro c he; simp at he; exact h6 c he
  | handlerPanic ch n h p hw hr hp =>
    have hh := h4 h hr
    subst hh
    refine ⟨h1, h2, h3, h4, ?_, ?_, Or.inr (Or.inr (Or.inr ⟨rfl, n, p, by simp⟩))⟩
    · intro e he
      simp at he
      rcases he with he | he
      · exact h5 e he
      · exact dispatch_logs_info n e he
    · intro c he; simp at he; exact h6 c he
  | handlerStart ch n h hw hr =>
    refine ⟨h1, h2, h3, h4, ?_, ?_, Or.inl hrun⟩
    · intro e he; simp at he; exact h5 e he
    · intro c he; simp at he; exact h6 c he
  | signalKills sig hk => exact ⟨h1, h2, h3, h4, h5, h6, Or.inr (Or.inr (Or.inl ⟨sig, rfl⟩))⟩
  | signalSent sig stopCh ch sigs hsub hmem hpc hd =>
    refine ⟨h1, h2, h3, h4, ?_, ?_, Or.inl hrun⟩
    · intro e he; simp at he; exact h5 e he
    · intro c he; simp at he; exact h6 c he
  | signalDropped sig => exact ⟨h1, h2, h3, h4, h5, h6, h7⟩

/-- Counterexample to C5: `restConfig` succeeds, the dynamic client cannot be
built, and `main` takes its second fatal exit: it logs the error at fatal
level and the process ends with exit code 1. -/
theorem client_error_fatal_exit :
    (restConfig badClient).2 = none ∧
    (exec badClient [Action.main, Action.main]).status = Status.exited 1 ∧
    (exec badClient [Action.main, Action.main]).status.exitCode = some 1 ∧
    (exec badClient [Action.main, Action.main]).trace =
      [Event.newForConfig (some { Host := "https://10.0.0.1:443" }),
       Event.log { level := Level.fatal,
                   msg := "could not generate dynamic client for config",
                   fields := [("error",
                     FieldValue.err "host must be a URL or a host:port pair")] },
       Event.exit 1] := by
  decide

/-- C5, amended: only an error of `restConfig` or of `dynamic.NewForConfig`
takes `main` to a fatal exit. In every run in which both succeed, nothing is
logged above info level and `os.Exit` is never called; the exit code of the
process, if it ends with one, is 0 from the return of `main`, or 2 when a
handler panicked, and in no other way. -/
theorem no_fatal_after_client (w : World) (cfg : Option Config) (dc : Option Client)
    (hc : restConfig w = (cfg, none)) (hn : w.NewForConfig cfg = (dc, none))
    (sched : List Action) :
    (∀ e, Event.log e ∈ (exec w sched).trace → e.level = Level.info) ∧
    (∀ c, Event.exit c ∉ (exec w sched).trace) ∧
    (∀ c, (exec w sched).status = Status.exited c → c = 0) ∧
    (∀ c, (exec w sched).status.exitCode = some c →
      c = 0 ∨ (c = 2 ∧ ∃ n p, Event.handlerEnd n (some p) ∈ (exec w sched).trace)) := by
  have hinit : NoFatalInv cfg Proc.init := by
    refine ⟨?_, ?_, fun _ => rfl, ?_, ?_, ?_, Or.inl rfl⟩
    · intro c h; cases h
    · intro f g h; cases h
    · intro h hh; cases hh
    · intro e he; cases he
    · intro c he; cases he
  have hall := exec_invariant w (NoFatalInv cfg) hinit
    (fun s s' hrun hs hst => noFatalInv_step w cfg dc hc hn s s' hrun hs hst) sched
  obtain ⟨_, _, _, _, h5, h6, h7⟩ := hall
  refine ⟨h5, h6, ?_, ?_⟩
  · intro c hex
    rw [hex] at h7
    rcases h7 with h | h | ⟨_, h⟩ | ⟨h, _⟩
    · cases h
    · cases h; rfl
    · cases h
    · cases h
  · intro c hex
    rcases h7 with h | h | ⟨_, h⟩ | ⟨h, hp⟩
    · rw [h] at hex; cases hex
    · rw [h] at hex; cases hex; exact Or.inl rfl
    · rw [h] at hex; cases hex
    · rw [h] at hex; cases hex; exact Or.inr ⟨rfl, hp⟩

/-- Witness for C5: in a pod, a run through an add notification, `SIGINT` and
the return of `main` never calls `os.Exit` and ends with code 0; a run in which
the add handler is given an object of another type ends with code 2, after the
panic of that handler. -/
theorem no_fatal_after_client_witness :
    (exec pod (untilWait ++ [Action.deliver (Notification.add (Interface.unstructured (some web))),
      Action.watch, Action.signal Signal.SIGINT, Action.main, Action.main,
      Action.main])).status.exitCode = some 0 ∧
    (∀ c, Event.exit c ∉ (exec pod (untilWait ++
      [Action.deliver (Notification.add (Interface.unstructured (some web))),
       Action.watch, Action.signal Signal.SIGINT, Action.main, Action.main,
       Action.main])).trace) ∧
    (exec pod (untilWait ++ [Action.deliver (Notification.add pod1), Action.watch,
      Action.signal Signal.SIGINT, Action.main, Action.main,
      Action.main])).status.exitCode = some 2 ∧
    (2 = 0 ∨ (2 = 2 ∧ ∃ n p, Event.handlerEnd n (some p) ∈
      (exec pod (untilWait ++ [Action.deliver (Notification.add pod1), Action.watch,
        Action.signal Signal.SIGINT, Action.main, Action.main, Action.main])).trace)) :=
  ⟨by decide,
   (no_fatal_after_client pod (some { Host := "https://10.0.0.1:443" })
     (some { cfg := { Host := "https://10.0.0.1:443" } }) rfl rfl _).2.1,
   by decide,
   (no_fatal_after_client pod (some { Host := "https://10.0.0.1:443" })
     (some { cfg := { Host := "https://10.0.0.1:443" } }) rfl rfl _).2.2.2 2 (by decide)⟩

/-- Trace projection `informersOf`, one event at a time. -/
theorem informersOf_cons (e : Event) (tr : List Event) :
    informersOf (e :: tr) =
      (match e with
        | Event.forResource i => [i]
        | _ => []) ++ informersOf tr := by
  cases e <;> rfl

/-- No informer in the empty trace. -/
theorem informersOf_nil : informersOf [] = [] := rfl

/-- The invariant `InformerInv` is kept by every step. -/
theorem informerInv_step (w : World) (s s' : Proc) (hs : InformerInv s) (hst : Step w s s') :
    InformerInv s' := by
  unfold InformerInv at hs ⊢
  obtain ⟨h1, h2, h3, h4, h5, h6⟩ := hs
  cases hst
  case handlerEnd ch n h hw hr hp =>
    refine ⟨h1, h2, fun i hi => List.mem_append_left _ (h3 i hi),
      fun i c hi => List.mem_append_left _ (h4 i c hi), ?_, ?_⟩
    · intro c i hgo
      have hgo' : Event.go c i ∈ s.trace := by simpa using hgo
      exact List.mem_append_left _ (h5 c i hgo')
    · simpa [informersOf_append, informersOf_logs, informersOf_cons, informersOf_nil] using h6
  case handlerPanic ch n h p hw hr hp =>
    refine ⟨h1, h2, fun i hi => List.mem_append_left _ (h3 i hi),
      fun i c hi => List.mem_append_left _ (h4 i c hi), ?_, ?_⟩
    · intro c i hgo
      have hgo' : Event.go c i ∈ s.trace := by simpa using hgo
      exact List.mem_append_left _ (h5 c i hgo')
    · simpa [informersOf_append, informersOf_logs, informersOf_cons, informersOf_nil] using h6
  all_goals refine ⟨?_, ?_, ?_, ?_, ?_, ?_⟩
  all_goals first
    | assumption
    | (intros
       simp_all [MainPc.beforeInformer, informersOf_cons, informersOf_nil, informersOf_append,
         informersOf_logs, Factory.Fixed, Informer.Fixed,
         NewFilteredDynamicSharedInformerFactory, Factory.ForResource, parse_deployments]
       first
         | done
         | (apply h5; assumption)
         | (left; apply h5; assumption)
         | (subst_vars; exact ⟨rfl, rfl, rfl⟩)
         | (rename_i hgo
            rcases hgo with hgo | ⟨_, hi⟩
            · exact h5 _ _ hgo
            · rw [hi]; assumption))

/-- C7: the watched resource and the scope are fixed. The constant
`deployments.v1.apps` parses to the non-nil group-version-resource with group
`apps`, version `v1` and resource `deployments`, so `main` never reaches the
dereference with a nil pointer; `v1.NamespaceAll` is the empty string; in every
world and every run `main` creates at most one informer, and that informer is
for exactly this resource, out of a factory with resync interval 0, namespace
`v1.NamespaceAll` and no tweak; it is the informer handed to `startWatching`;
and it is created whenever `restConfig` and `dynamic.NewForConfig` succeed and
`main` runs its first five statements. -/
theorem fixed_resource_all_namespaces (w : World) (sched : List Action) :
    (ParseResourceArg "deployments.v1.apps").1 =
      some { Group := "apps", Version := "v1", Resource := "deployments" } ∧
    v1.NamespaceAll = "" ∧
    (∀ f, (exec w sched).pc ≠ MainPc.informer f none) ∧
    (informersOf (exec w sched).trace = [] ∨
     ∃ dc, informersOf (exec w sched).trace =
       [{ factory := { client := dc, defaultResync := 0, ns := "", tweakListOptions := none },
          gvr := { Group := "apps", Version := "v1", Resource := "deployments" } }]) ∧
    (∀ ch i, Event.go ch i ∈ (exec w sched).trace → Event.forResource i ∈ (exec w sched).trace) ∧
    (∀ cfg dc, restConfig w = (cfg, none) → w.NewForConfig cfg = (dc, none) →
      informersOf (exec w [Action.main, Action.main, Action.main, Action.main,
        Action.main]).trace =
       [{ factory := { client := dc, defaultResync := 0, ns := "", tweakListOptions := none },
          gvr := { Group := "apps", Version := "v1", Resource := "deployments" } }]) := by
  have hinit : InformerInv Proc.init := by
    refine ⟨?_, ?_, ?_, ?_, ?_, Or.inl ⟨rfl, rfl⟩⟩
    · intro f h; cases h
    · intro f g h; cases h
    · intro i h; cases h
    · intro i ch h; cases h
    · intro ch i h; cases h
  have hall := exec_invariant w InformerInv hinit
    (fun s s' _ hs hst => informerInv_step w s s' hs hst) sched
  obtain ⟨_, h2, _, _, h5, h6⟩ := hall
  refine ⟨parse_deployments, rfl, ?_, ?_, h5, ?_⟩
  · intro f hpc
    have := (h2 f none hpc).2
    cases this
  · rcases h6 with ⟨_, h⟩ | ⟨_, i, hi, h⟩
    · exact Or.inl h
    · right
      refine ⟨i.factory.client, ?_⟩
      rw [h]
      obtain ⟨⟨f1, f2, f3⟩, hg⟩ := hi
      rcases i with ⟨⟨c, r, n, t⟩, g⟩
      simp only at f1 f2 f3 hg
      subst f1 f2 f3 hg
      rfl
  · intro cfg dc hc hn
    simp [exec, execFrom, step, main, Proc.init, hc, hn, parse_deployments, informersOf,
      NewFilteredDynamicSharedInformerFactory, Factory.ForResource, v1.NamespaceAll]

/-- Witness for C7: in a pod the informer is created, with the client built
from the in-cluster configuration. -/
theorem fixed_resource_all_namespaces_witness :
    informersOf (exec pod [Action.main, Action.main, Action.main, Action.main,
      Action.main]).trace =
      [{ factory := { client := some { cfg := { Host := "https://10.0.0.1:443" } },
                      defaultResync := 0, ns := "", tweakListOptions := none },
         gvr := { Group := "apps", Version := "v1", Resource := "deployments" } }] :=
  (fixed_resource_all_namespaces pod []).2.2.2.2.2 _ _ rfl rfl

/-- Trace projection `closesOf`, one event at a time. -/
theorem closesOf_cons (e : Event) (tr : List Event) :
    closesOf (e :: tr) =
      (match e with
        | Event.close ch => [ch]
        | _ => []) ++ closesOf tr := by
  cases e <;> rfl

/-- No close in the empty trace. -/
theorem closesOf_nil : closesOf [] = [] := rfl

/-- The events of a handler call need no justification. -/
theorem history_handler (tr : List Event) (l : List Entry) (n : Notification) (p : Option Panic)
    (h : History Ordered tr) :
    History Ordered (tr ++ (l.map Event.log ++ [Event.handlerEnd n p])) := by
  apply history_append_free _ _ _ h
  intro x hx pre
  simp at hx
  rcases hx with ⟨e, _, rfl⟩ | rfl <;> simp [Ordered]

/-- Step lemma for `OrderInv`: channel identities in the trace stay below the
next identity. -/
theorem order_step_fresh (w : World) (s s' : Proc)
    (h2 : ∀ c k, Event.makeChan c k ∈ s.trace → c < s.nextChan) (hst : Step w s s') :
    ∀ c k, Event.makeChan c k ∈ s'.trace → c < s'.nextChan := by
  cases hst <;> intro c k hm <;> (try simp at hm) <;>
    first
      | exact h2 c k hm
      | (rcases hm with hm | ⟨rfl, _⟩
         · exact Nat.lt_succ_of_lt (h2 c k hm)
         · exact Nat.lt_succ_self _)

/-- Step lemma for `OrderInv`: what is known when the goroutine is about to
register the handlers. -/
theorem order_step_watchAdd (w : World) (s s' : Proc)
    (h3 : ∀ ch i, s.watcher = WatchPc.addEventHandler ch i →
      Event.go ch i ∈ s.trace ∧ Event.makeChan ch ChanElem.struct ∈ s.trace)
    (h5 : ∀ ch, s.pc.stopChan = some ch → Event.makeChan ch ChanElem.struct ∈ s.trace)
    (hst : Step w s s') :
    ∀ ch i, s'.watcher = WatchPc.addEventHandler ch i →
      Event.go ch i ∈ s'.trace ∧ Event.makeChan ch ChanElem.struct ∈ s'.trace := by
  cases hst <;> intro ch i hw <;> simp_all [MainPc.stopChan]

/-- Step lemma for `OrderInv`: what is known when the goroutine is about to
call `Run`. -/
theorem order_step_watchRun (w : World) (s s' : Proc)
    (h3 : ∀ ch i, s.watcher = WatchPc.addEventHandler ch i →
      Event.go ch i ∈ s.trace ∧ Event.makeChan ch ChanElem.struct ∈ s.trace)
    (h4 : ∀ ch i, s.watcher = WatchPc.run ch i →
      Event.addEventHandler i ∈ s.trace ∧ Event.go ch i ∈ s.trace ∧
      Event.makeChan ch ChanElem.struct ∈ s.trace)
    (hst : Step w s s') :
    ∀ ch i, s'.watcher = WatchPc.run ch i →
      Event.addEventHandler i ∈ s'.trace ∧ Event.go ch i ∈ s'.trace ∧
      Event.makeChan ch ChanElem.struct ∈ s'.trace := by
  cases hst <;> intro ch i hw <;> simp_all


/-- Step lemma for `OrderInv`: every new event is justified by the trace. -/
theorem order_step_history (w : World) (s s' : Proc)
    (h1 : History Ordered s.trace)
    (h4 : ∀ ch i, s.watcher = WatchPc.run ch i →
      Event.addEventHandler i ∈ s.trace ∧ Event.go ch i ∈ s.trace ∧
      Event.makeChan ch ChanElem.struct ∈ s.trace)
    (h5 : ∀ ch, s.pc.stopChan = some ch → Event.makeChan ch ChanElem.struct ∈ s.trace)
    (h7 : ∀ ch, s.pc = MainPc.close ch →
      ∃ c sig, Event.recv c sig ∈ s.trace ∧ Event.makeChan c ChanElem.signal ∈ s.trace)
    (hst : Step w s s') : History Ordered s'.trace := by
  cases hst <;>
    first
      | exact h1
      | exact history_handler _ _ _ _ h1
      | (simp_all [history_snoc, Ordered, MainPc.stopChan]
         done)
      | (apply history_append_free _ _ _ h1
         intro x hx pre
         simp at hx
         rcases hx with rfl | rfl | rfl <;> simp [Ordered])

/-- Step lemma for `OrderInv`: the live `stopCh` of `main` was made as a
`chan struct{}`. -/
theorem order_step_stopChan (w : World) (s s' : Proc)
    (h5 : ∀ ch, s.pc.stopChan = some ch → Event.makeChan ch ChanElem.struct ∈ s.trace)
    (hst : Step w s s') :
    ∀ ch, s'.pc.stopChan = some ch → Event.makeChan ch ChanElem.struct ∈ s'.trace := by
  cases hst <;> intro ch hpc <;> simp_all [MainPc.stopChan]

/-- Step lemma for `OrderInv`: the live `sigCh` of `main` was made as a signal
channel and is not a stop channel. -/
theorem order_step_sigChan (w : World) (s s' : Proc)
    (h2 : ∀ c k, Event.makeChan c k ∈ s.trace → c < s.nextChan)
    (h6 : ∀ c, s.pc.sigChan = some c →
      Event.makeChan c ChanElem.signal ∈ s.trace ∧ Event.makeChan c ChanElem.struct ∉ s.trace)
    (hst : Step w s s') :
    ∀ c, s'.pc.sigChan = some c →
      Event.makeChan c ChanElem.signal ∈ s'.trace ∧ Event.makeChan c ChanElem.struct ∉ s'.trace := by
  cases hst <;> intro c hpc <;> simp_all [MainPc.sigChan]
  intro hmem
  exact absurd (h2 _ _ hmem) (Nat.lt_irrefl _)

/-- Step lemma for `OrderInv`: `main` stands before `close` only after a
receive from a signal channel. -/
theorem order_step_closeReady (w : World) (s s' : Proc)
    (h6 : ∀ c, s.pc.sigChan = some c →
      Event.makeChan c ChanElem.signal ∈ s.trace ∧ Event.makeChan c ChanElem.struct ∉ s.trace)
    (h7 : ∀ ch, s.pc = MainPc.close ch →
      ∃ c sig, Event.recv c sig ∈ s.trace ∧ Event.makeChan c ChanElem.signal ∈ s.trace)
    (hst : Step w s s') :
    ∀ ch, s'.pc = MainPc.close ch →
      ∃ c sig, Event.recv c sig ∈ s'.trace ∧ Event.makeChan c ChanElem.signal ∈ s'.trace := by
  cases hst <;> intro ch hpc <;> simp_all [MainPc.sigChan]
  exact ⟨_, ⟨_, Or.inr ⟨rfl, rfl⟩⟩, h6.1⟩

/-- Step lemma for `OrderInv`: no close before the end of `main`, one close
there. -/
theorem order_step_closes (w : World) (s s' : Proc)
    (h8 : (s.pc = MainPc.ret ∧ (closesOf s.trace).length = 1) ∨
      (s.pc ≠ MainPc.ret ∧ closesOf s.trace = []))
    (hst : Step w s s') :
    (s'.pc = MainPc.ret ∧ (closesOf s'.trace).length = 1) ∨
      (s'.pc ≠ MainPc.ret ∧ closesOf s'.trace = []) := by
  cases hst <;>
    simp_all [closesOf_append, closesOf_cons, closesOf_nil, closesOf_logs]

/-- Step lemma for `OrderInv`: no value is sent on a stop channel. -/
theorem order_step_sends (w : World) (s s' : Proc)
    (h9 : ∀ c sig, Event.send c sig ∈ s.trace → Event.makeChan c ChanElem.struct ∉ s.trace)
    (h10 : s.subscribed = none → ∀ c sig, Event.send c sig ∉ s.trace)
    (h11 : ∀ c sigs, s.subscribed = some (c, sigs) →
      s.pc.afterNotify = true ∧ Event.makeChan c ChanElem.struct ∉ s.trace)
    (hst : Step w s s') :
    ∀ c sig, Event.send c sig ∈ s'.trace → Event.makeChan c ChanElem.struct ∉ s'.trace := by
  cases hst <;> intro c sig hm <;> simp_all [MainPc.afterNotify] <;>
    first
      | exact h9 c sig hm
      | (exfalso
         apply h10 _ c sig hm
         cases hsub : s.subscribed with
         | none => rfl
         | some p => exact absurd hsub (h11 p.1 p.2))
      | (rcases hm with hm | ⟨rfl, _⟩
         · exact h9 c sig hm
         · exact h11)

/-- Step lemma for `OrderInv`: nothing is sent before `signal.Notify`. -/
theorem order_step_unsubscribed (w : World) (s s' : Proc)
    (h10 : s.subscribed = none → ∀ c sig, Event.send c sig ∉ s.trace)
    (hst : Step w s s') :
    s'.subscribed = none → ∀ c sig, Event.send c sig ∉ s'.trace := by
  cases hst <;> intro hsub c sig <;> simp_all

/-- Step lemma for `OrderInv`: the channel registered by `signal.Notify` is not
a stop channel. -/
theorem order_step_subscribed (w : World) (s s' : Proc)
    (h6 : ∀ c, s.pc.sigChan = some c →
      Event.makeChan c ChanElem.signal ∈ s.trace ∧ Event.makeChan c ChanElem.struct ∉ s.trace)
    (h11 : ∀ c sigs, s.subscribed = some (c, sigs) →
      s.pc.afterNotify = true ∧ Event.makeChan c ChanElem.struct ∉ s.trace)
    (hst : Step w s s') :
    ∀ c sigs, s'.subscribed = some (c, sigs) →
      s'.pc.afterNotify = true ∧ Event.makeChan c ChanElem.struct ∉ s'.trace := by
  cases hst <;> intro c sigs hsub <;> simp_all [MainPc.afterNotify, MainPc.sigChan]

/-- Step lemma for `OrderInv`: once `AddEventHandler` was called the handlers
of the program are registered. -/
theorem order_step_registered (w : World) (s s' : Proc)
    (h12 : s.registered = none ∨ s.registered = some handlers)
    (h13 : ∀ i, Event.addEventHandler i ∈ s.trace → s.registered = some handlers)
    (hst : Step w s s') :
    (s'.registered = none ∨ s'.registered = some handlers) ∧
    (∀ i, Event.addEventHandler i ∈ s'.trace → s'.registered = some handlers) := by
  cases hst <;> refine ⟨?_, ?_⟩ <;>
    first
      | assumption
      | (simp_all
         done)
      | (intro i hi
         simp at hi
         exact h13 i hi)

/-- The invariant `OrderInv` is kept by every step. -/
theorem orderInv_step (w : World) (s s' : Proc) (hs : OrderInv s) (hst : Step w s s') :
    OrderInv s' := by
  obtain ⟨h1, h2, h3, h4, h5, h6, h7, h8, h9, h10, h11, h12, h13⟩ := hs
  exact ⟨order_step_history w s s' h1 h4 h5 h7 hst,
    order_step_fresh w s s' h2 hst,
    order_step_watchAdd w s s' h3 h5 hst,
    order_step_watchRun w s s' h3 h4 hst,
    order_step_stopChan w s s' h5 hst,
    order_step_sigChan w s s' h2 h6 hst,
    order_step_closeReady w s s' h6 h7 hst,
    order_step_closes w s s' h8 hst,
    order_step_sends w s s' h9 h10 h11 hst,
    order_step_unsubscribed w s s' h10 hst,
    order_step_subscribed w s s' h6 h11 hst,
    (order_step_registered w s s' h12 h13 hst).1,
    (order_step_registered w s s' h12 h13 hst).2⟩

/-- The invariant `OrderInv` holds at launch. -/
theorem orderInv_init : OrderInv Proc.init := by
  refine ⟨?_, ?_, ?_, ?_, ?_, ?_, ?_, Or.inr ⟨by decide, rfl⟩, ?_, ?_, ?_, Or.inl rfl, ?_⟩
  · intro pre x post h
    cases pre <;> cases h
  · intro c k h; cases h
  · intro ch i h; cases h
  · intro ch i h; cases h
  · intro ch h; cases h
  · intro c h; cases h
  · intro ch h; cases h
  · intro c sig h; cases h
  · intro _ c sig h; cases h
  · intro c sigs h; cases h
  · intro i h; cases h

/-- C10: start and stop are ordered in every run. Every call of `Run` on the
informer comes after `AddEventHandler` on that informer, which registers the
three handlers of the program, and `Run` gets the channel of the `go`
statement, a channel `main` made as `chan struct{}`; every close is on such a
channel and comes after a receive from a signal channel; there is at most one
close; and no value is ever sent on a stop channel. -/
theorem start_stop_ordering (w : World) (sched : List Action) :
    (∀ pre post i ch, (exec w sched).trace = pre ++ Event.run i ch :: post →
      Event.addEventHandler i ∈ pre ∧ Event.go ch i ∈ pre ∧
      Event.makeChan ch ChanElem.struct ∈ pre) ∧
    (∀ i, Event.addEventHandler i ∈ (exec w sched).trace →
      (exec w sched).registered = some handlers) ∧
    (∀ pre post ch, (exec w sched).trace = pre ++ Event.close ch :: post →
      Event.makeChan ch ChanElem.struct ∈ pre ∧
      ∃ c sig, Event.recv c sig ∈ pre ∧ Event.makeChan c ChanElem.signal ∈ pre) ∧
    (closesOf (exec w sched).trace).length ≤ 1 ∧
    (∀ c sig, Event.send c sig ∈ (exec w sched).trace →
      Event.makeChan c ChanElem.struct ∉ (exec w sched).trace) := by
  have hall := exec_invariant w OrderInv orderInv_init
    (fun s s' _ hs hst => orderInv_step w s s' hs hst) sched
  obtain ⟨h1, _, _, _, _, _, _, h8, h9, _, _, _, h13⟩ := hall
  refine ⟨?_, h13, ?_, ?_, h9⟩
  · intro pre post i ch heq
    exact h1 pre _ post heq
  · intro pre post ch heq
    exact h1 pre _ post heq
  · rcases h8 with ⟨_, h⟩ | ⟨_, h⟩
    · exact le_of_eq h
    · rw [h]; exact Nat.zero_le _

/-- Witness for C10: in a complete run in a pod, `Run` is called after
`AddEventHandler` and the `go` statement on the channel made first, and the one
close comes after the receive of `SIGINT` from the signal channel. -/
theorem start_stop_ordering_witness :
    (Event.addEventHandler podInformer ∈ (exec pod fullRun).trace.take 7 ∧
     Event.go 0 podInformer ∈ (exec pod fullRun).trace.take 7 ∧
     Event.makeChan 0 ChanElem.struct ∈ (exec pod fullRun).trace.take 7) ∧
    (Event.makeChan 0 ChanElem.struct ∈ (exec pod fullRun).trace.take 15 ∧
     ∃ c sig, Event.recv c sig ∈ (exec pod fullRun).trace.take 15 ∧
       Event.makeChan c ChanElem.signal ∈ (exec pod fullRun).trace.take 15) :=
  ⟨(start_stop_ordering pod fullRun).1 ((exec pod fullRun).trace.take 7)
     ((exec pod fullRun).trace.drop 8) podInformer 0 (by decide),
   (start_stop_ordering pod fullRun).2.2.1 ((exec pod fullRun).trace.take 15)
     ((exec pod fullRun).trace.drop 16) 0 (by decide)⟩

/-- The trace of the complete run in a pod. -/
theorem full_run_trace :
    (exec pod fullRun).trace =
      [Event.newForConfig (some { Host := "https://10.0.0.1:443" }),
       Event.newFactory podInformer.factory,
       Event.parseResourceArg "deployments.v1.apps",
       Event.forResource podInformer,
       Event.makeChan 0 ChanElem.struct,
       Event.go 0 podInformer,
       Event.addEventHandler podInformer,
       Event.run podInformer 0,
       Event.makeChan 1 ChanElem.signal,
       Event.notify 1 [Signal.SIGKILL, Signal.SIGINT],
       Event.handlerStart (Notification.add (Interface.unstructured (some web))),
       Event.log { level := Level.info, msg := "received add event!",
                   fields := [("name", FieldValue.str "web"),
                              ("namespace", FieldValue.str "default"),
                              ("labels", FieldValue.strMap [("app", "web")])] },
       Event.handlerEnd (Notification.add (Interface.unstructured (some web))) none,
       Event.send 1 Signal.SIGINT,
       Event.recv 1 Signal.SIGINT,
       Event.close 0,
       Event.runReturn] := by
  decide

/-- Schedules compose. -/
theorem exec_append (w : World) (a b : List Action) :
    exec w (a ++ b) = execFrom w (exec w a) b := by
  simp [exec, execFrom, List.foldl_append]

/-- Counterexample to C8: an add handler is executing when `SIGINT` arrives;
`main` receives, closes the stop channel and returns, and the process has
ended with the handler still in flight: its log entry was never written and
`Run` never returned. -/
theorem exit_with_handler_in_flight :
    (exec pod (untilWait ++ [Action.deliver (Notification.add (Interface.unstructured (some web))),
      Action.signal Signal.SIGINT, Action.main, Action.main, Action.main])).status =
      Status.exited 0 ∧
    (exec pod (untilWait ++ [Action.deliver (Notification.add (Interface.unstructured (some web))),
      Action.signal Signal.SIGINT, Action.main, Action.main, Action.main])).watcher =
      WatchPc.handling 0 (Notification.add (Interface.unstructured (some web))) ∧
    (exec pod (untilWait ++ [Action.deliver (Notification.add (Interface.unstructured (some web))),
      Action.signal Signal.SIGINT, Action.main, Action.main, Action.main,
      Action.watch, Action.watch])).trace.drop 10 =
      [Event.handlerStart (Notification.add (Interface.unstructured (some web))),
       Event.send 1 Signal.SIGINT, Event.recv 1 Signal.SIGINT, Event.close 0] := by
  decide

/-- C8, amended: on shutdown `main` does not wait for the `startWatching`
goroutine. Once `main` has closed the stop channel, its next statement ends
the process with code 0 whatever the goroutine is doing, and nothing happens
afterwards: the goroutine stays where it was, a handler in flight included,
and the trace gets no further event. -/
theorem main_returns_without_waiting (w : World) (sched rest : List Action)
    (hpc : (exec w sched).pc = MainPc.ret) (hrun : (exec w sched).status = Status.running) :
    (exec w (sched ++ Action.main :: rest)).status = Status.exited 0 ∧
    (exec w (sched ++ Action.main :: rest)).watcher = (exec w sched).watcher ∧
    (exec w (sched ++ Action.main :: rest)).trace = (exec w sched).trace := by
  have hstep : step w Action.main (exec w sched) =
      some { exec w sched with status := Status.exited 0 } := by
    simp [step, hrun, main, hpc]
  have hcons : execFrom w (exec w sched) (Action.main :: rest) =
      execFrom w ((step w Action.main (exec w sched)).getD (exec w sched)) rest := rfl
  rw [exec_append, hcons, hstep, Option.getD_some, execFrom_ended w _ (by simp) rest]
  exact ⟨rfl, rfl, rfl⟩

/-- Witness for C8: the run in which the add handler is in flight when `main`
has closed the stop channel. -/
theorem main_returns_without_waiting_witness :
    (exec pod (untilWait ++ [Action.deliver (Notification.add (Interface.unstructured (some web))),
      Action.signal Signal.SIGINT, Action.main, Action.main] ++
      Action.main :: [Action.watch])).watcher =
    (exec pod (untilWait ++ [Action.deliver (Notification.add (Interface.unstructured (some web))),
      Action.signal Signal.SIGINT, Action.main, Action.main])).watcher :=
  (main_returns_without_waiting pod
    (untilWait ++ [Action.deliver (Notification.add (Interface.unstructured (some web))),
      Action.signal Signal.SIGINT, Action.main, Action.main])
    [Action.watch] (by decide) (by decide)).2.1

/-- C4, the code at the failing input: the call of `signal.Notify` names
`os.Kill` and `os.Interrupt`, that is `SIGKILL` and `SIGINT`, and not
`SIGTERM`. With `main` blocked in its receive, `SIGTERM` ends the process by
its default action: nothing is received, the stop channel is not closed.
`SIGINT` in the same state is received and leads to the close and the return
of `main`. -/
theorem sigterm_not_subscribed :
    [os.Kill, os.Interrupt] = [Signal.SIGKILL, Signal.SIGINT] ∧
    Signal.SIGTERM ∉ [os.Kill, os.Interrupt] ∧
    (exec pod untilWait).pc = MainPc.receive 0 1 ∧
    (exec pod untilWait).subscribed = some (1, [Signal.SIGKILL, Signal.SIGINT]) ∧
    (exec pod (untilWait ++ [Action.signal Signal.SIGTERM, Action.main, Action.main,
      Action.main])).status = Status.killed Signal.SIGTERM ∧
    (exec pod (untilWait ++ [Action.signal Signal.SIGTERM, Action.main, Action.main,
      Action.main])).closed = [] ∧
    closesOf (exec pod (untilWait ++ [Action.signal Signal.SIGTERM, Action.main, Action.main,
      Action.main])).trace = [] ∧
    (exec pod (untilWait ++ [Action.signal Signal.SIGINT, Action.main, Action.main,
      Action.main])).status = Status.exited 0 ∧
    (exec pod (untilWait ++ [Action.signal Signal.SIGINT, Action.main, Action.main,
      Action.main])).closed = [0] := by
  decide

end DynamicInformers
